import Mathlib

/-!
# Smart Health Monitor: a verification development of `main.c`

Shallow embedding of the analysis pipeline of `main.c` (record parsers,
statistics, alert engine, health score) together with the properties that the
specification states about it.

Conventions of the embedding

* C `int` is `Int`; where the source can leave the 32-bit range the wrap is
  written out (`wrap32`).
* C `float` is `CFloat`: a sign, a natural significand and a binary exponent
  (value `(-1)^neg * m * 2^e`), plus the infinities and NaN.  `isBinary32`
  singles out the values a `float` object can hold.  A `double` constant of
  the source such as `100.4` is written as the dyadic number the compiler
  puts in the binary, so comparisons are the ones the machine performs.
* C strings and file contents are `List Char`, one `Char` for each byte.
-/

namespace SmartHealth

/-! ## Floating point values -/

/-- A C floating point value: `finite neg m e` is `(-1)^neg * m * 2^e`. -/
inductive CFloat where
  | finite (neg : Bool) (m : Nat) (e : Int)
  | inf (neg : Bool)
  | nan
  deriving DecidableEq

namespace CFloat

/-- The values of IEEE 754 binary32, each finite one with its unique
    normalised (or subnormal, `e = -149`) significand and exponent. -/
def isBinary32 : CFloat → Bool
  | finite _ m e => decide (m < 2 ^ 24) && decide (-149 ≤ e) && decide (e ≤ 104)
      && (decide (2 ^ 23 ≤ m) || decide (e = -149))
  | _ => true

/-- Signed numerator of `(-1)^neg * m * 2^e` over the unit `2^k` (for `k ≤ e`). -/
def scaled (neg : Bool) (m : Nat) (e k : Int) : Int :=
  (if neg then -1 else 1) * ((m : Int) * 2 ^ (e - k).toNat)

/-- The C comparison `x < y`: false as soon as one operand is NaN. -/
def lt : CFloat → CFloat → Bool
  | nan, _ => false
  | _, nan => false
  | inf n1, inf n2 => n1 && !n2
  | inf n1, finite _ _ _ => n1
  | finite _ _ _, inf n2 => !n2
  | finite n1 m1 e1, finite n2 m2 e2 =>
      decide (scaled n1 m1 e1 (min e1 e2) < scaled n2 m2 e2 (min e1 e2))

/-- The C comparison `x > y`. -/
def gt (x y : CFloat) : Bool := lt y x

/-- The C comparison `x <= y`: false as soon as one operand is NaN. -/
def le : CFloat → CFloat → Bool
  | nan, _ => false
  | _, nan => false
  | x, y => !(lt y x)

/-- The C comparison `x >= y`. -/
def ge (x y : CFloat) : Bool := le y x

/-- An integer constant of the source converted to floating point (exact for
    the small constants the source uses). -/
def lit (n : Nat) : CFloat := finite false n 0

/-- The `double` constant `100.4`: the binary64 number nearest to 100.4,
    `3532510957718733 / 2^45`. -/
def c100_4 : CFloat := finite false 3532510957718733 (-45)

/-- The `double` constant `99.5`, exactly `199 / 2`. -/
def c99_5 : CFloat := finite false 199 (-1)

/-- Auxiliary for `ilog2`: halve `n` until it is below 2, at most `fuel` times. -/
def ilog2Aux : Nat → Nat → Nat
  | 0, _ => 0
  | fuel + 1, n => if n < 2 then 0 else ilog2Aux fuel (n / 2) + 1

/-- Position of the leading bit of `n`: `floor (log2 n)` for `n > 0`. -/
def ilog2 (n : Nat) : Nat := ilog2Aux n n

/-- The integer nearest to `num / den` (`den ≠ 0`), ties to the even one. -/
def roundHalfEven (num den : Nat) : Nat :=
  let q := num / den
  let r := num % den
  if 2 * r < den then q else if den < 2 * r then q + 1 else if q % 2 = 0 then q else q + 1

/-- Round to nearest, ties to even, of `(-1)^neg * (num / den) * 2^ex`
    (`den ≠ 0`) into binary32; magnitudes that round to `2^128` or more give
    an infinity. -/
def round32 (neg : Bool) (num den : Nat) (ex : Int) : CFloat :=
  if num = 0 then finite neg 0 (-149)
  else
    -- k = floor (log2 (num / den))
    let k0 : Int := (ilog2 num : Int) - (ilog2 den : Int)
    let k : Int := if num * 2 ^ (-k0).toNat < den * 2 ^ k0.toNat then k0 - 1 else k0
    -- exponent of the last place of the result
    let t : Int := max (k + ex - 23) (-149)
    -- (num / den) * 2^ex = (N / D) * 2^t
    let N : Nat := num * 2 ^ (ex - t).toNat
    let D : Nat := den * 2 ^ (t - ex).toNat
    let m : Nat := roundHalfEven N D
    if m = 2 ^ 24 then (if t + 1 > 104 then inf neg else finite neg (2 ^ 23) (t + 1))
    else (if t > 104 then inf neg else finite neg m t)

/-- Conversion of a C `int` to `float`. -/
def ofInt (n : Int) : CFloat := round32 (decide (n < 0)) n.natAbs 1 0

/-- Binary32 addition. -/
def add : CFloat → CFloat → CFloat
  | nan, _ => nan
  | _, nan => nan
  | inf a, inf b => if a = b then inf a else nan
  | inf a, finite _ _ _ => inf a
  | finite _ _ _, inf b => inf b
  | finite n1 m1 e1, finite n2 m2 e2 =>
      let k := min e1 e2
      let s := scaled n1 m1 e1 k + scaled n2 m2 e2 k
      -- an exact zero sum is +0, except (-0) + (-0) = -0
      if s = 0 then finite (n1 && n2) 0 (-149)
      else round32 (decide (s < 0)) s.natAbs 1 k

/-- Binary32 division. -/
def div : CFloat → CFloat → CFloat
  | nan, _ => nan
  | _, nan => nan
  | inf _, inf _ => nan
  | inf a, finite n2 _ _ => inf (xor a n2)
  | finite n1 _ _, inf b => finite (xor n1 b) 0 (-149)
  | finite n1 m1 e1, finite n2 m2 e2 =>
      if m2 = 0 then (if m1 = 0 then nan else inf (xor n1 n2))
      else round32 (xor n1 n2) m1 m2 (e1 - e2)

end CFloat

open CFloat

/-- Values of a 32-bit C `int`. -/
def isInt32 (x : Int) : Bool := decide (-2147483648 ≤ x) && decide (x ≤ 2147483647)

/-! ## Formatted output -/

/-- Conversion `%d` of `sprintf`. -/
def fmt_d (x : Int) : List Char :=
  (if x < 0 then ['-'] else []) ++ Nat.toDigits 10 x.natAbs

/-- Conversion `%.<prec>f` of `sprintf`: the exact value rounded to `prec`
    decimals, ties to even.  (The sign that some C libraries print in front
    of a NaN is not represented.) -/
def fmt_f (prec : Nat) : CFloat → List Char
  | nan => ['n', 'a', 'n']
  | inf neg => (if neg then ['-'] else []) ++ ['i', 'n', 'f']
  | finite neg m e =>
      let n := roundHalfEven (m * 10 ^ prec * 2 ^ e.toNat) (2 ^ (-e).toNat)
      let ip := Nat.toDigits 10 (n / 10 ^ prec)
      let fp := Nat.toDigits 10 (n % 10 ^ prec)
      (if neg then ['-'] else []) ++ ip
        ++ (if prec = 0 then [] else '.' :: (List.replicate (prec - fp.length) '0' ++ fp))

/-! ## Data model -/

/-- `HealthRecord` of the source.  `date` is the string held in the 20-byte
    buffer, without its terminator. -/
structure HealthRecord where
  date : List Char
  heart_rate : Int
  systolic_bp : Int
  diastolic_bp : Int
  blood_sugar : Int
  temperature : CFloat
  oxygen_level : Int
  steps : Int
  deriving DecidableEq

/-- A record whose numeric fields are zero and whose date is empty. -/
def HealthRecord.zero : HealthRecord :=
  { date := [], heart_rate := 0, systolic_bp := 0, diastolic_bp := 0, blood_sugar := 0,
    temperature := finite false 0 (-149), oxygen_level := 0, steps := 0 }

/-- `Alert` of the source: 1=Low, 2=Medium, 3=High, 4=Critical. -/
structure Alert where
  message : List Char
  severity : Int
  deriving DecidableEq

/-- `HealthStats` of the source. -/
structure HealthStats where
  avg_heart_rate : CFloat
  avg_systolic : CFloat
  avg_diastolic : CFloat
  avg_blood_sugar : CFloat
  avg_temperature : CFloat
  avg_oxygen : CFloat
  total_steps : Int
  record_count : Int
  deriving DecidableEq

/-- The fields of a `HealthStats` object hold values of their C types. -/
def HealthStats.wellTyped (s : HealthStats) : Bool :=
  s.avg_heart_rate.isBinary32 && s.avg_systolic.isBinary32 && s.avg_diastolic.isBinary32
    && s.avg_blood_sugar.isBinary32 && s.avg_temperature.isBinary32 && s.avg_oxygen.isBinary32
    && isInt32 s.total_steps && isInt32 s.record_count

/-! ## Health score -/

/-- `calculate_health_score` of the source.  The integer division is C's
    truncating division; `record_count = 0` is undefined in C. -/
def calculate_health_score (stats : HealthStats) : Int :=
  let score : Int := 100
  -- Heart rate
  let score :=
    if lt stats.avg_heart_rate (lit 60) || gt stats.avg_heart_rate (lit 100) then score - 15
    else if lt stats.avg_heart_rate (lit 65) || gt stats.avg_heart_rate (lit 95) then score - 5
    else score
  -- Blood pressure
  let score :=
    if gt stats.avg_systolic (lit 140) || gt stats.avg_diastolic (lit 90) then score - 20
    else if gt stats.avg_systolic (lit 130) || gt stats.avg_diastolic (lit 80) then score - 10
    else if lt stats.avg_systolic (lit 90) || lt stats.avg_diastolic (lit 60) then score - 15
    else score
  -- Blood sugar
  let score :=
    if gt stats.avg_blood_sugar (lit 200) || lt stats.avg_blood_sugar (lit 70) then score - 25
    else if gt stats.avg_blood_sugar (lit 125) then score - 15
    else score
  -- Temperature
  let score :=
    if gt stats.avg_temperature c100_4 || lt stats.avg_temperature (lit 95) then score - 15
    else if gt stats.avg_temperature c99_5 || lt stats.avg_temperature (lit 97) then score - 5
    else score
  -- Oxygen
  let score :=
    if lt stats.avg_oxygen (lit 90) then score - 25
    else if lt stats.avg_oxygen (lit 95) then score - 10
    else score
  -- Steps
  let avg_steps := Int.tdiv stats.total_steps stats.record_count
  let score :=
    if avg_steps < 5000 then score - 10
    else if avg_steps > 10000 then score + 5
    else score
  let score := if score < 0 then 0 else score
  let score := if score > 100 then 100 else score
  score

/-! ## C library: strings, `fgets`, `sscanf` conversions -/

/-- `MAX_RECORDS` of the source. -/
def MAX_RECORDS : Nat := 1000

/-- `MAX_LINE` of the source. -/
def MAX_LINE : Nat := 512

/-- `isspace` in the C locale. -/
def isspace (c : Char) : Bool :=
  c = ' ' || c = '\t' || c = '\n' || c = '\x0b' || c = '\x0c' || c = '\r'

/-- `isdigit`. -/
def isdigit (c : Char) : Bool := decide (48 ≤ c.toNat) && decide (c.toNat ≤ 57)

/-- `isxdigit`. -/
def isxdigit (c : Char) : Bool :=
  isdigit c || (decide (97 ≤ c.toNat) && decide (c.toNat ≤ 102))
    || (decide (65 ≤ c.toNat) && decide (c.toNat ≤ 70))

/-- `isalnum` or underscore: the characters allowed between the parentheses of `nan(...)`. -/
def isnchar (c : Char) : Bool :=
  isdigit c || (decide (97 ≤ c.toNat) && decide (c.toNat ≤ 122))
    || (decide (65 ≤ c.toNat) && decide (c.toNat ≤ 90)) || c = '_'

/-- `tolower` on ASCII letters. -/
def tolower (c : Char) : Char :=
  if 65 ≤ c.toNat ∧ c.toNat ≤ 90 then Char.ofNat (c.toNat + 32) else c

/-- Value of a hexadecimal (or decimal) digit. -/
def xdigit_value (c : Char) : Nat :=
  if isdigit c then c.toNat - 48
  else if 97 ≤ c.toNat then c.toNat - 87
  else c.toNat - 55

/-- Value of a digit string in the given base. -/
def digits_value (base : Nat) (ds : List Char) : Nat :=
  ds.foldl (fun acc c => base * acc + xdigit_value c) 0

/-- Two's complement reduction to 32 bits. -/
def wrap32 (x : Int) : Int := (x + 2147483648) % 4294967296 - 2147483648

/-- The C string held in a buffer: the characters before the first NUL. -/
def cstr (buf : List Char) : List Char := buf.takeWhile (fun c => c ≠ '\x00')

/-- `strstr(hay, needle) != NULL`. -/
def strstr (hay needle : List Char) : Bool := hay.tails.any (fun t => needle.isPrefixOf t)

/-- The characters `fgets` stores when it may store `k` more: it stops after
    a newline, at the end of the file, or when the buffer is full. -/
def fgets_take : Nat → List Char → List Char × List Char
  | 0, rest => ([], rest)
  | _ + 1, [] => ([], [])
  | k + 1, c :: cs =>
      if c = '\n' then ([c], cs) else ((fgets_take k cs).1.cons c, (fgets_take k cs).2)

/-- `fgets(line, n, file)` on the unread part of the file: `none` is the NULL
    returned at end of file, otherwise the characters stored and the part
    left unread. -/
def fgets (n : Nat) (file : List Char) : Option (List Char × List Char) :=
  match file with
  | [] => none
  | _ :: _ => some (fgets_take (n - 1) file)

/-- The buffers returned by successive calls `fgets(line, MAX_LINE, file)`
    until it returns NULL, at most `fuel` of them. -/
def read_lines_fuel : Nat → List Char → List (List Char)
  | 0, _ => []
  | fuel + 1, file =>
      match fgets MAX_LINE file with
      | none => []
      | some (line, rest) => line :: read_lines_fuel fuel rest

/-- The buffers returned by successive calls of `fgets` on a file; every call
    consumes a character, so the length of the file is fuel enough. -/
def read_lines (file : List Char) : List (List Char) := read_lines_fuel file.length file

/-- The statement `line[strcspn(line, "\r\n")] = 0`: the string now ends
    before its first CR or LF. -/
def chomp (buf : List Char) : List Char :=
  (cstr buf).takeWhile (fun c => c ≠ '\r' && c ≠ '\n')

/-- White space skipped by a conversion or by white space in a format. -/
def skip_ws (s : List Char) : List Char := s.dropWhile isspace

/-- An optional sign: whether it is `-`, and the input after it. -/
def scan_sign (s : List Char) : Bool × List Char :=
  match s with
  | '-' :: t => (true, t)
  | '+' :: t => (false, t)
  | _ => (false, s)

/-- The `int` stored by `%d` for the digits read: as glibc does, the value is
    taken through `strtol` (saturating at the range of `long`) and then
    converted to `int`. -/
def int_of_scan (neg : Bool) (n : Nat) : Int :=
  let v : Int := if neg then -(n : Int) else (n : Int)
  let l : Int :=
    if v > 9223372036854775807 then 9223372036854775807
    else if v < -9223372036854775808 then -9223372036854775808
    else v
  wrap32 l

/-- Conversion `%d`: the value stored and the input left, `none` when the
    input does not start (after white space) with an optionally signed
    non-empty digit string. -/
def scan_int (s : List Char) : Option (Int × List Char) :=
  let p := scan_sign (skip_ws s)
  let ds := p.2.takeWhile isdigit
  if ds.isEmpty then none
  else some (int_of_scan p.1 (digits_value 10 ds), p.2.dropWhile isdigit)

/-- Conversion `%s`: a non-empty run of non-white-space characters. -/
def scan_string (s : List Char) : Option (List Char × List Char) :=
  let t := skip_ws s
  let w := t.takeWhile (fun c => !isspace c)
  if w.isEmpty then none else some (w, t.dropWhile (fun c => !isspace c))

/-- Conversion `%[^,]`: a non-empty run of characters other than a comma. -/
def scan_not_comma (s : List Char) : Option (List Char × List Char) :=
  let w := s.takeWhile (fun c => c ≠ ',')
  if w.isEmpty then none else some (w, s.dropWhile (fun c => c ≠ ','))

/-- Literal text of a format: white space in the format skips any white space
    of the input, every other character must be the next input character. -/
def match_literal : List Char → List Char → Option (List Char)
  | [], s => some s
  | f :: fs, s =>
      if isspace f then match_literal fs (skip_ws s)
      else
        match s with
        | [] => none
        | c :: cs => if c = f then match_literal fs cs else none

/-- Case-insensitive test that `s` starts with the lower-case word `w`. -/
def starts_ci (w s : List Char) : Bool := w.isPrefixOf (s.map tolower)

/-- An exponent part introduced by the letter `mark` (lower case): `none` when
    the letter is there without digits after it (the conversion then fails),
    otherwise the exponent (0 when there is no exponent part) and the input left. -/
def scan_exponent (mark : Char) (s : List Char) : Option (Int × List Char) :=
  match s with
  | c :: t =>
      if tolower c = mark then
        let p := scan_sign t
        let ds := p.2.takeWhile isdigit
        if ds.isEmpty then none
        else some ((if p.1 then -(digits_value 10 ds : Int) else (digits_value 10 ds : Int)),
                   p.2.dropWhile isdigit)
      else some (0, s)
  | [] => some (0, s)

/-- A digit string with an optional point in it: the digits before and after
    the point and the input left. -/
def scan_mantissa (isdig : Char → Bool) (s : List Char) : List Char × List Char × List Char :=
  let ip := s.takeWhile isdig
  let t := s.dropWhile isdig
  match t with
  | '.' :: u => (ip, u.takeWhile isdig, u.dropWhile isdig)
  | _ => (ip, [], t)

/-- The `float` for `(-1)^neg * n * base^ex` (`base` 10 or 2), correctly rounded. -/
def float_of_scan (neg : Bool) (n : Nat) (base : Nat) (ex : Int) : CFloat :=
  if base = 2 then round32 neg n 1 ex
  else if 0 ≤ ex then round32 neg (n * 10 ^ ex.toNat) 1 0
  else round32 neg n (10 ^ (-ex).toNat) 0

/-- Conversion `%f` (the subject sequence of `strtof`): infinity, NaN, a
    hexadecimal or a decimal floating constant, after optional white space and
    sign.  An input item that is only a proper prefix of such a sequence makes
    the conversion fail. -/
def scan_float (s : List Char) : Option (CFloat × List Char) :=
  let p := scan_sign (skip_ws s)
  let neg := p.1
  let s := p.2
  if starts_ci ['i', 'n', 'f'] s then
    let t := s.drop 3
    if starts_ci ['i', 'n', 'i', 't', 'y'] t then some (inf neg, t.drop 5)
    else if starts_ci ['i'] t then none
    else some (inf neg, t)
  else if starts_ci ['n', 'a', 'n'] s then
    match s.drop 3 with
    | '(' :: u =>
        match u.dropWhile isnchar with
        | ')' :: v => some (nan, v)
        | _ => none
    | t => some (nan, t)
  else if starts_ci ['0', 'x'] s then
    let m := scan_mantissa isxdigit (s.drop 2)
    if m.1.isEmpty && m.2.1.isEmpty then none
    else
      match scan_exponent 'p' m.2.2 with
      | none => none
      | some (ex, rest) =>
          some (float_of_scan neg (digits_value 16 (m.1 ++ m.2.1)) 2
                  (ex - 4 * (m.2.1.length : Int)), rest)
  else
    let m := scan_mantissa isdigit s
    if m.1.isEmpty && m.2.1.isEmpty then none
    else
      match scan_exponent 'e' m.2.2 with
      | none => none
      | some (ex, rest) =>
          some (float_of_scan neg (digits_value 10 (m.1 ++ m.2.1)) 10
                  (ex - (m.2.1.length : Int)), rest)

/-! ## Delimited-format parser -/

/-- The call `sscanf(line, "%[^,],%d,%d,%d,%d,%f,%d,%d", ...)` on the record
    `r`: the value returned (`-1` is EOF) and the record with the converted
    fields stored.  The text stored in `date` is not bounded here; a token of
    20 characters or more overruns the buffer in the source (`csv_fits`). -/
def sscanf_csv (line : List Char) (r : HealthRecord) : Int × HealthRecord :=
  match line with
  | [] => (-1, r)
  | _ :: _ =>
  match scan_not_comma line with
  | none => (0, r)
  | some (date, s) =>
  let r := { r with date := date }
  match (match_literal [','] s).bind scan_int with
  | none => (1, r)
  | some (v, s) =>
  let r := { r with heart_rate := v }
  match (match_literal [','] s).bind scan_int with
  | none => (2, r)
  | some (v, s) =>
  let r := { r with systolic_bp := v }
  match (match_literal [','] s).bind scan_int with
  | none => (3, r)
  | some (v, s) =>
  let r := { r with diastolic_bp := v }
  match (match_literal [','] s).bind scan_int with
  | none => (4, r)
  | some (v, s) =>
  let r := { r with blood_sugar := v }
  match (match_literal [','] s).bind scan_float with
  | none => (5, r)
  | some (x, s) =>
  let r := { r with temperature := x }
  match (match_literal [','] s).bind scan_int with
  | none => (6, r)
  | some (v, s) =>
  let r := { r with oxygen_level := v }
  match (match_literal [','] s).bind scan_int with
  | none => (7, r)
  | some (v, _) => (8, { r with steps := v })

/-- Body of the `while` loop of `load_csv_data` for one buffer read by
    `fgets`; `records` are the entries counted so far (`*count` is their
    number).  The slot `records[*count]` gets its numeric fields zeroed; its
    `date` is whatever the slot held, which no counted record shows, since a
    record is counted only after its date has been stored. -/
def csv_step (buf : List Char) (records : List HealthRecord) : List HealthRecord :=
  let line := chomp buf
  if line.length < 5 then records
  else
    let scanned := sscanf_csv line HealthRecord.zero
    if scanned.1 ≥ 5 then records ++ [scanned.2] else records

/-- The `while` loop of `load_csv_data` over the buffers `fgets` returns. -/
def csv_loop : List (List Char) → List HealthRecord → List HealthRecord
  | [], records => records
  | buf :: rest, records =>
      if records.length < MAX_RECORDS then csv_loop rest (csv_step buf records) else records

/-- `load_csv_data` of the source.  `file` is the content of the file (`none`
    when `fopen` fails) and `session` the records held before the call; the
    result is the value returned and the records held after it, `*count`
    being their number. -/
def load_csv_data (file : Option (List Char)) (session : List HealthRecord) :
    Int × List HealthRecord :=
  match file with
  | none => (0, session)
  | some content =>
      match fgets MAX_LINE content with
      | none => (0, [])
      | some (_, rest) =>
          let records := csv_loop (read_lines rest) []
          (if records.length > 0 then 1 else 0, records)

/-! ## Labeled-block parser -/

/-- The call `sscanf(line, "Date: %s", current.date)`. -/
def sscanf_date (line : List Char) (cur : HealthRecord) : HealthRecord :=
  match (match_literal "Date: ".toList line).bind scan_string with
  | some (w, _) => { cur with date := w }
  | none => cur

/-- The call `sscanf(line, "Heart Rate: %d", &current.heart_rate)`. -/
def sscanf_heart_rate (line : List Char) (cur : HealthRecord) : HealthRecord :=
  match (match_literal "Heart Rate: ".toList line).bind scan_int with
  | some (v, _) => { cur with heart_rate := v }
  | none => cur

/-- The call `sscanf(line, "Blood Pressure: %d/%d", ...)`. -/
def sscanf_blood_pressure (line : List Char) (cur : HealthRecord) : HealthRecord :=
  match (match_literal "Blood Pressure: ".toList line).bind scan_int with
  | some (v, s) =>
      let cur := { cur with systolic_bp := v }
      match (match_literal ['/'] s).bind scan_int with
      | some (w, _) => { cur with diastolic_bp := w }
      | none => cur
  | none => cur

/-- The call `sscanf(line, "Blood Sugar: %d", &current.blood_sugar)`. -/
def sscanf_blood_sugar (line : List Char) (cur : HealthRecord) : HealthRecord :=
  match (match_literal "Blood Sugar: ".toList line).bind scan_int with
  | some (v, _) => { cur with blood_sugar := v }
  | none => cur

/-- The call `sscanf(line, "Temperature: %f", &current.temperature)`. -/
def sscanf_temperature (line : List Char) (cur : HealthRecord) : HealthRecord :=
  match (match_literal "Temperature: ".toList line).bind scan_float with
  | some (x, _) => { cur with temperature := x }
  | none => cur

/-- The call `sscanf(line, "Oxygen Level: %d", &current.oxygen_level)`. -/
def sscanf_oxygen_level (line : List Char) (cur : HealthRecord) : HealthRecord :=
  match (match_literal "Oxygen Level: ".toList line).bind scan_int with
  | some (v, _) => { cur with oxygen_level := v }
  | none => cur

/-- The call `sscanf(line, "Steps: %d", &current.steps)`. -/
def sscanf_steps (line : List Char) (cur : HealthRecord) : HealthRecord :=
  match (match_literal "Steps: ".toList line).bind scan_int with
  | some (v, _) => { cur with steps := v }
  | none => cur

/-- The variables of `load_txt_data` that its loop updates. -/
structure TxtState where
  current : HealthRecord
  fields_read : Nat
  records : List HealthRecord

/-- The commit `records[*count] = current; (*count)++` guarded by
    `fields_read == 7 && *count < MAX_RECORDS`, as written before a new
    `Date:` line is read (there it also resets `fields_read`). -/
def txt_commit (st : TxtState) : TxtState :=
  if st.fields_read = 7 ∧ st.records.length < MAX_RECORDS then
    { st with records := st.records ++ [st.current], fields_read := 0 }
  else st

/-- Body of the `while` loop of `load_txt_data` for one buffer read by `fgets`. -/
def txt_step (buf : List Char) (st : TxtState) : TxtState :=
  let line := chomp buf
  if strstr line "Date:".toList && decide (line.length > 6) then
    let st := txt_commit st
    { st with current := sscanf_date line st.current, fields_read := 1 }
  else if strstr line "Heart Rate:".toList && decide (st.fields_read ≥ 1) then
    { st with current := sscanf_heart_rate line st.current, fields_read := 2 }
  else if strstr line "Blood Pressure:".toList && decide (st.fields_read ≥ 2) then
    { st with current := sscanf_blood_pressure line st.current, fields_read := 3 }
  else if strstr line "Blood Sugar:".toList && decide (st.fields_read ≥ 3) then
    { st with current := sscanf_blood_sugar line st.current, fields_read := 4 }
  else if strstr line "Temperature:".toList && decide (st.fields_read ≥ 4) then
    { st with current := sscanf_temperature line st.current, fields_read := 5 }
  else if strstr line "Oxygen Level:".toList && decide (st.fields_read ≥ 5) then
    { st with current := sscanf_oxygen_level line st.current, fields_read := 6 }
  else if strstr line "Steps:".toList && decide (st.fields_read ≥ 6) then
    { st with current := sscanf_steps line st.current, fields_read := 7 }
  else st

/-- The `while` loop of `load_txt_data` over the buffers `fgets` returns. -/
def txt_loop : List (List Char) → TxtState → TxtState
  | [], st => st
  | buf :: rest, st =>
      if st.records.length < MAX_RECORDS then txt_loop rest (txt_step buf st) else st

/-- `load_txt_data` of the source.  `file` and `session` are as for
    `load_csv_data`; `garbage` is the indeterminate content of the local
    variable `current`, which the source declares without initialising it. -/
def load_txt_data (file : Option (List Char)) (session : List HealthRecord)
    (garbage : HealthRecord) : Int × List HealthRecord :=
  match file with
  | none => (0, session)
  | some content =>
      let st := txt_loop (read_lines content)
        { current := garbage, fields_read := 0, records := [] }
      let records :=
        if st.fields_read = 7 ∧ st.records.length < MAX_RECORDS then st.records ++ [st.current]
        else st.records
      (if records.length > 0 then 1 else 0, records)

/-! ## Statistics -/

/-- The sums of `calculate_statistics` after its loop over the records:
    the six `float` sums, each addition rounded to binary32, and the `int`
    total of the steps (reduced to 32 bits where the source overflows). -/
def sum_records :
    List HealthRecord → CFloat × CFloat × CFloat × CFloat × CFloat × CFloat × Int →
      CFloat × CFloat × CFloat × CFloat × CFloat × CFloat × Int
  | [], acc => acc
  | r :: rest, (sum_hr, sum_sys, sum_dia, sum_sugar, sum_temp, sum_oxy, total_steps) =>
      sum_records rest
        (add sum_hr (ofInt r.heart_rate), add sum_sys (ofInt r.systolic_bp),
         add sum_dia (ofInt r.diastolic_bp), add sum_sugar (ofInt r.blood_sugar),
         add sum_temp r.temperature, add sum_oxy (ofInt r.oxygen_level),
         wrap32 (total_steps + r.steps))

/-- `calculate_statistics` of the source; `records` are the first `count`
    entries of the array. -/
def calculate_statistics (records : List HealthRecord) : HealthStats :=
  let zero := finite false 0 (-149)
  let sums := sum_records records (zero, zero, zero, zero, zero, zero, 0)
  let count : Int := records.length
  { record_count := count,
    avg_heart_rate := div sums.1 (ofInt count),
    avg_systolic := div sums.2.1 (ofInt count),
    avg_diastolic := div sums.2.2.1 (ofInt count),
    avg_blood_sugar := div sums.2.2.2.1 (ofInt count),
    avg_temperature := div sums.2.2.2.2.1 (ofInt count),
    avg_oxygen := div sums.2.2.2.2.2.1 (ofInt count),
    total_steps := sums.2.2.2.2.2.2 }

/-! ## Alert engine -/

/-- Heart-rate block of `analyze_health`: the alerts it appends. -/
def heart_rate_analysis (stats : HealthStats) : List Alert :=
  if gt stats.avg_heart_rate (lit 100) then
    [{ message := "Average heart rate is ".toList ++ fmt_f 0 stats.avg_heart_rate
        ++ " BPM - Possible tachycardia detected".toList,
       severity := if gt stats.avg_heart_rate (lit 120) then 4 else 3 }]
  else if lt stats.avg_heart_rate (lit 60) then
    [{ message := "Average heart rate is ".toList ++ fmt_f 0 stats.avg_heart_rate
        ++ " BPM - Bradycardia detected".toList,
       severity := if lt stats.avg_heart_rate (lit 40) then 4 else 2 }]
  else []

/-- Blood-pressure block of `analyze_health`. -/
def blood_pressure_analysis (stats : HealthStats) : List Alert :=
  if gt stats.avg_systolic (lit 140) || gt stats.avg_diastolic (lit 90) then
    [{ message := "Average BP is ".toList ++ fmt_f 0 stats.avg_systolic ++ ['/']
        ++ fmt_f 0 stats.avg_diastolic ++ " mmHg - Hypertension (Stage 2)".toList,
       severity := 4 }]
  else if gt stats.avg_systolic (lit 130) || gt stats.avg_diastolic (lit 80) then
    [{ message := "Average BP is ".toList ++ fmt_f 0 stats.avg_systolic ++ ['/']
        ++ fmt_f 0 stats.avg_diastolic ++ " mmHg - Hypertension (Stage 1)".toList,
       severity := 3 }]
  else if lt stats.avg_systolic (lit 90) || lt stats.avg_diastolic (lit 60) then
    [{ message := "Average BP is ".toList ++ fmt_f 0 stats.avg_systolic ++ ['/']
        ++ fmt_f 0 stats.avg_diastolic ++ " mmHg - Hypotension detected".toList,
       severity := 2 }]
  else []

/-- Blood-sugar block of `analyze_health`. -/
def blood_sugar_analysis (stats : HealthStats) : List Alert :=
  if gt stats.avg_blood_sugar (lit 200) then
    [{ message := "Average blood sugar is ".toList ++ fmt_f 0 stats.avg_blood_sugar
        ++ " mg/dL - Severe hyperglycemia".toList,
       severity := 4 }]
  else if gt stats.avg_blood_sugar (lit 125) then
    [{ message := "Average blood sugar is ".toList ++ fmt_f 0 stats.avg_blood_sugar
        ++ " mg/dL - Diabetes risk detected".toList,
       severity := 3 }]
  else if lt stats.avg_blood_sugar (lit 70) then
    [{ message := "Average blood sugar is ".toList ++ fmt_f 0 stats.avg_blood_sugar
        ++ " mg/dL - Hypoglycemia detected".toList,
       severity := 3 }]
  else []

/-- Temperature block of `analyze_health`. -/
def temperature_analysis (stats : HealthStats) : List Alert :=
  if gt stats.avg_temperature c100_4 then
    [{ message := "Average temperature is ".toList ++ fmt_f 1 stats.avg_temperature
        ++ " F - Fever detected".toList,
       severity := 3 }]
  else if lt stats.avg_temperature (lit 95) then
    [{ message := "Average temperature is ".toList ++ fmt_f 1 stats.avg_temperature
        ++ " F - Hypothermia risk".toList,
       severity := 4 }]
  else []

/-- Oxygen block of `analyze_health`. -/
def oxygen_analysis (stats : HealthStats) : List Alert :=
  if lt stats.avg_oxygen (lit 90) then
    [{ message := "Average oxygen saturation is ".toList ++ fmt_f 0 stats.avg_oxygen
        ++ "% - Hypoxemia (Critical)".toList,
       severity := 4 }]
  else if lt stats.avg_oxygen (lit 95) then
    [{ message := "Average oxygen saturation is ".toList ++ fmt_f 0 stats.avg_oxygen
        ++ "% - Low oxygen levels".toList,
       severity := 2 }]
  else []

/-- Physical-activity block of `analyze_health` (`count` is its `count`
    argument; the division is C's truncating one). -/
def activity_analysis (count : Int) (stats : HealthStats) : List Alert :=
  let avg_steps := Int.tdiv stats.total_steps count
  if avg_steps < 5000 then
    [{ message := "Average daily steps: ".toList ++ fmt_d avg_steps
        ++ " - Sedentary lifestyle detected".toList,
       severity := 2 }]
  else []

/-- The loop of the trend block: `i` runs over `count - 3` and `count - 2`,
    clearing a flag when a consecutive pair does not increase. -/
def trend_flags (records : List HealthRecord) : Bool × Bool :=
  (List.range' (records.length - 3) 2).foldl
    (fun (flags : Bool × Bool) (i : Nat) =>
      let increasing_hr :=
        if (records.getD i HealthRecord.zero).heart_rate
            ≥ (records.getD (i + 1) HealthRecord.zero).heart_rate then false else flags.1
      let increasing_bp :=
        if (records.getD i HealthRecord.zero).systolic_bp
            ≥ (records.getD (i + 1) HealthRecord.zero).systolic_bp then false else flags.2
      (increasing_hr, increasing_bp))
    (true, true)

/-- Heart-rate part of the trend block of `analyze_health`. -/
def hr_trend_analysis (records : List HealthRecord) : List Alert :=
  if records.length ≥ 3 then
    if (trend_flags records).1 then
      [{ message := "Heart rate showing consistent upward trend".toList, severity := 2 }]
    else []
  else []

/-- Systolic part of the trend block of `analyze_health`. -/
def bp_trend_analysis (records : List HealthRecord) : List Alert :=
  if records.length ≥ 3 then
    if (trend_flags records).2 then
      [{ message := "Blood pressure showing consistent upward trend".toList, severity := 2 }]
    else []
  else []

/-- `analyze_health` of the source: `records` are the first `count` entries of
    the array, the result the first `alert_count` entries of `alerts`. -/
def analyze_health (records : List HealthRecord) (stats : HealthStats) : List Alert :=
  heart_rate_analysis stats ++ blood_pressure_analysis stats ++ blood_sugar_analysis stats
    ++ temperature_analysis stats ++ oxygen_analysis stats
    ++ activity_analysis (records.length : Int) stats
    ++ hr_trend_analysis records ++ bp_trend_analysis records

/-! ## Manual entry -/

/-- `add_manual_record` of the source.  `entered` is the content of the local
    `new_record` after the eight `scanf` calls on the standard input: what the
    user typed, or what the variable held where a conversion failed. -/
def add_manual_record (records : List HealthRecord) (entered : HealthRecord) :
    List HealthRecord :=
  if records.length ≥ MAX_RECORDS then records else records ++ [entered]

/-! ## Advice generator -/

/-- `print_line` of the source: `length` copies of `c` and a newline. -/
def print_line (c : Char) (length : Nat) : List Char := List.replicate length c ++ ['\n']

/-- The five flags of `generate_advice`. -/
structure AdviceFlags where
  has_heart_issue : Bool
  has_bp_issue : Bool
  has_sugar_issue : Bool
  has_oxygen_issue : Bool
  has_activity_issue : Bool
  deriving DecidableEq

/-- Body of the `for` loop of `generate_advice` for one alert. -/
def advice_flags_step (flags : AdviceFlags) (a : Alert) : AdviceFlags :=
  { has_heart_issue :=
      if strstr a.message "heart rate".toList then true else flags.has_heart_issue,
    has_bp_issue :=
      if strstr a.message "pressure".toList || strstr a.message "BP".toList then true
      else flags.has_bp_issue,
    has_sugar_issue := if strstr a.message "sugar".toList then true else flags.has_sugar_issue,
    has_oxygen_issue :=
      if strstr a.message "oxygen".toList then true else flags.has_oxygen_issue,
    has_activity_issue :=
      if strstr a.message "steps".toList then true else flags.has_activity_issue }

/-- The flags of `generate_advice` after its loop over the alerts. -/
def advice_flags (alerts : List Alert) : AdviceFlags :=
  alerts.foldl advice_flags_step
    { has_heart_issue := false, has_bp_issue := false, has_sugar_issue := false,
      has_oxygen_issue := false, has_activity_issue := false }

/-- The banner `generate_advice` prints first. -/
def advice_banner : List Char :=
  "\n".toList ++ print_line '=' 60 ++ "              PERSONALIZED HEALTH ADVICE\n".toList
    ++ print_line '=' 60

/-- The generic wellness block, printed for an empty alert sequence. -/
def advice_wellness_block : List Char :=
  ("\n[SUCCESS] Excellent! Your health metrics are optimal.\n\n"
    ++ "General Wellness Tips:\n"
    ++ "  * Maintain your current healthy lifestyle\n"
    ++ "  * Stay hydrated (8 glasses of water daily)\n"
    ++ "  * Continue regular physical activity\n"
    ++ "  * Get 7-9 hours of quality sleep\n"
    ++ "  * Practice stress management techniques\n").toList

/-- The heading printed before the category blocks. -/
def advice_actions_heading : List Char := "\nRECOMMENDED ACTIONS:\n".toList ++ print_line '-' 60

/-- The category block for heart rate. -/
def advice_heart_block : List Char :=
  ("\nFor Heart Rate Issues:\n"
    ++ "  * Consult a cardiologist for proper evaluation\n"
    ++ "  * Practice deep breathing exercises\n"
    ++ "  * Reduce caffeine and stimulant intake\n"
    ++ "  * Manage stress through meditation or yoga\n"
    ++ "  * Ensure adequate sleep (7-9 hours)\n").toList

/-- The category block for blood pressure. -/
def advice_bp_block : List Char :=
  ("\nFor Blood Pressure Issues:\n"
    ++ "  * Reduce sodium intake (<2300mg/day)\n"
    ++ "  * Eat more fruits, vegetables, and whole grains\n"
    ++ "  * Maintain healthy weight\n"
    ++ "  * Limit alcohol consumption\n"
    ++ "  * Exercise regularly (30 min/day, 5 days/week)\n"
    ++ "  * Monitor BP daily and keep a log\n").toList

/-- The category block for blood sugar. -/
def advice_sugar_block : List Char :=
  ("\nFor Blood Sugar Issues:\n"
    ++ "  * Consult an endocrinologist\n"
    ++ "  * Follow a balanced, low-glycemic diet\n"
    ++ "  * Eat smaller, frequent meals\n"
    ++ "  * Increase fiber intake\n"
    ++ "  * Exercise regularly to improve insulin sensitivity\n"
    ++ "  * Monitor blood sugar levels consistently\n").toList

/-- The category block for oxygen. -/
def advice_oxygen_block : List Char :=
  ("\nFor Oxygen Level Issues:\n"
    ++ "  * [URGENT] SEEK IMMEDIATE MEDICAL ATTENTION if severe\n"
    ++ "  * Practice breathing exercises\n"
    ++ "  * Ensure proper ventilation in living spaces\n"
    ++ "  * Avoid smoking and secondhand smoke\n"
    ++ "  * Consider pulmonary function tests\n").toList

/-- The category block for physical activity. -/
def advice_activity_block : List Char :=
  ("\nFor Low Physical Activity:\n"
    ++ "  * Start with 10-minute walks, gradually increase\n"
    ++ "  * Take stairs instead of elevators\n"
    ++ "  * Set hourly reminders to stand and stretch\n"
    ++ "  * Find activities you enjoy (dancing, sports, etc.)\n"
    ++ "  * Use a fitness tracker for motivation\n"
    ++ "  * Aim for 10,000 steps per day\n").toList

/-- The fixed medical disclaimer. -/
def advice_disclaimer : List Char :=
  ("\n[IMPORTANT DISCLAIMER]\n"
    ++ "This is an automated analysis tool and NOT a substitute\n"
    ++ "for professional medical advice. Please consult healthcare\n"
    ++ "professionals for proper diagnosis and treatment.\n").toList

/-- `generate_advice` of the source: the text it prints for the first
    `alert_count` entries of `alerts`. -/
def generate_advice (alerts : List Alert) : List Char :=
  let out := advice_banner
  let flags := advice_flags alerts
  if alerts.length = 0 then
    -- the function returns here
    out ++ advice_wellness_block
  else
    let out := out ++ advice_actions_heading
    let out := if flags.has_heart_issue then out ++ advice_heart_block else out
    let out := if flags.has_bp_issue then out ++ advice_bp_block else out
    let out := if flags.has_sugar_issue then out ++ advice_sugar_block else out
    let out := if flags.has_oxygen_issue then out ++ advice_oxygen_block else out
    let out := if flags.has_activity_issue then out ++ advice_activity_block else out
    out ++ advice_disclaimer

/-! ## Display tags of the report -/

/-- Heart-rate test of `display_report`: the vital is tagged NORMAL. -/
def display_hr_normal (stats : HealthStats) : Bool :=
  ge stats.avg_heart_rate (lit 60) && le stats.avg_heart_rate (lit 100)

/-- Blood-pressure test of `display_report`. -/
def display_bp_normal (stats : HealthStats) : Bool :=
  lt stats.avg_systolic (lit 120) && lt stats.avg_diastolic (lit 80)

/-- Blood-sugar test of `display_report`. -/
def display_sugar_normal (stats : HealthStats) : Bool :=
  ge stats.avg_blood_sugar (lit 70) && le stats.avg_blood_sugar (lit 125)

/-- Temperature test of `display_report` (`97.0` and `99.0` are exact). -/
def display_temp_normal (stats : HealthStats) : Bool :=
  ge stats.avg_temperature (lit 97) && le stats.avg_temperature (lit 99)

/-- Oxygen test of `display_report`. -/
def display_oxygen_normal (stats : HealthStats) : Bool :=
  ge stats.avg_oxygen (lit 95)

/-- Every vital of the report carries the NORMAL tag. -/
def display_all_normal (stats : HealthStats) : Bool :=
  display_hr_normal stats && display_bp_normal stats && display_sugar_normal stats
    && display_temp_normal stats && display_oxygen_normal stats

/-- Statistics of one record with heart rate 62 and every other vital mid-band. -/
def stats_hr62 : HealthStats :=
  { avg_heart_rate := ofInt 62, avg_systolic := ofInt 110, avg_diastolic := ofInt 70,
    avg_blood_sugar := ofInt 90, avg_temperature := ofInt 98, avg_oxygen := ofInt 98,
    total_steps := 8000, record_count := 1 }

/-- The statistics `stats_fit` with another average heart rate. -/
def stats_with_hr (hr : CFloat) : HealthStats :=
  { avg_heart_rate := hr, avg_systolic := ofInt 110, avg_diastolic := ofInt 70,
    avg_blood_sugar := ofInt 90, avg_temperature := ofInt 98, avg_oxygen := ofInt 98,
    total_steps := 8000, record_count := 1 }

/-- Statistics of one record with every vital mid-band. -/
def stats_fit : HealthStats :=
  { avg_heart_rate := ofInt 72, avg_systolic := ofInt 110, avg_diastolic := ofInt 70,
    avg_blood_sugar := ofInt 90, avg_temperature := ofInt 98, avg_oxygen := ofInt 98,
    total_steps := 8000, record_count := 1 }

/-! ## Example inputs -/

/-- The delimited input of the end-to-end example of the specification. -/
def csv_example : List Char :=
  ("Date,HeartRate,SystolicBP,DiastolicBP,BloodSugar,Temperature,OxygenLevel,Steps\n"
    ++ "2025-01-01,72,118,78,95,98.2,98,8500\n"
    ++ "2025-01-02,122,152,99,195,99.8,93,3500\n").toList

/-- The two records of `csv_example` (98.2 and 99.8 rounded to binary32). -/
def csv_example_records : List HealthRecord :=
  [{ date := "2025-01-01".toList, heart_rate := 72, systolic_bp := 118, diastolic_bp := 78,
     blood_sugar := 95, temperature := finite false 12871270 (-17), oxygen_level := 98,
     steps := 8500 },
   { date := "2025-01-02".toList, heart_rate := 122, systolic_bp := 152, diastolic_bp := 99,
     blood_sugar := 195, temperature := finite false 13080986 (-17), oxygen_level := 93,
     steps := 3500 }]

/-- The statistics of `csv_example_records`. -/
def csv_example_stats : HealthStats :=
  { avg_heart_rate := finite false 12713984 (-17), avg_systolic := finite false 8847360 (-16),
    avg_diastolic := finite false 11599872 (-17), avg_blood_sugar := finite false 9502720 (-16),
    avg_temperature := finite false 12976128 (-17), avg_oxygen := finite false 12517376 (-17),
    total_steps := 12000, record_count := 2 }

/-- A header of 511 characters followed, on the same line, by `x,1,2,3,4`. -/
def csv_long_header : List Char := List.replicate 511 'h' ++ "x,1,2,3,4\n".toList

/-! ## The delimited format as the specification words it -/

/-- The lines of a text: each one ends with its LF, except possibly the last. -/
def text_lines : List Char → List (List Char)
  | [] => []
  | c :: cs =>
      if c = '\n' then [c] :: text_lines cs
      else
        match text_lines cs with
        | [] => [[c]]
        | l :: ls => (c :: l) :: ls

/-- A line without its trailing CR and LF characters. -/
def strip_eol (line : List Char) : List Char :=
  (line.reverse.dropWhile (fun c => c = '\r' || c = '\n')).reverse

/-- Number of leading fields of a line that parse in left-to-right order, as
    `sscanf` counts them. -/
def csv_fields_parsed (line : List Char) : Int := (sscanf_csv line HealthRecord.zero).1

/-- A data line that counts: at least 5 characters after stripping the
    trailing CR/LF, and at least its first 5 fields parse. -/
def csv_acceptable (line : List Char) : Bool :=
  decide (5 ≤ (strip_eol line).length) && decide (5 ≤ csv_fields_parsed (strip_eol line))

/-- Number of acceptable lines after the first (header) line. -/
def csv_expected_count (file : List Char) : Nat :=
  ((text_lines file).tail.filter csv_acceptable).length

/-- A line that one call of `fgets` reads whole (at most 511 characters, its
    LF included), without NUL, and with CR and LF only in its terminator. -/
def line_plain (line : List Char) : Bool :=
  decide (line.length ≤ 511) && line.all (fun c => c ≠ '\x00')
    && (strip_eol line).all (fun c => c ≠ '\r' && c ≠ '\n')

/-- The date token of a delimited line fits the 20-byte `date` buffer. -/
def csv_date_fits (line : List Char) : Bool :=
  decide (((strip_eol line).takeWhile (fun c => c ≠ ',')).length ≤ 19)

/-- A complete labeled block followed by one whose `Heart Rate:` line has no
    number and whose `Blood Pressure:` line has no diastolic part. -/
def txt_missing_values : List Char :=
  ("Date: 2025-10-26\nHeart Rate: 72\nBlood Pressure: 118/78\nBlood Sugar: 95\n"
    ++ "Temperature: 98.2\nOxygen Level: 98\nSteps: 8500\n\n"
    ++ "Date: 2025-10-27\nHeart Rate: abc\nBlood Pressure: 120\nBlood Sugar: 102\n"
    ++ "Temperature: 98.4\nOxygen Level: 97\nSteps: 9200\n").toList

/-- One record with every vital mid-band; its statistics are `stats_fit`. -/
def fit_records : List HealthRecord :=
  [{ date := "2025-01-01".toList, heart_rate := 72, systolic_bp := 110, diastolic_bp := 70,
     blood_sugar := 90, temperature := ofInt 98, oxygen_level := 98, steps := 8000 }]

/-! ## Capacity of the session -/

namespace CFloat

/-- The value of a finite number. -/
def val (neg : Bool) (m : Nat) (e : Int) : ℚ :=
  (if neg then -1 else 1) * (m : ℚ) * (2 : ℚ) ^ e

/-- Mathematical `x < c` for an exact rational bound `c` (NaN is below nothing). -/
def below : CFloat → ℚ → Bool
  | nan, _ => false
  | inf n, _ => n
  | finite neg m e, c => decide (val neg m e < c)

/-- Mathematical `x > c` for an exact rational bound `c` (NaN is above nothing). -/
def above : CFloat → ℚ → Bool
  | nan, _ => false
  | inf n, _ => !n
  | finite neg m e, c => decide (c < val neg m e)

/-- The number `x` is finite and its value is exactly `q`. -/
def hasValue : CFloat → ℚ → Prop
  | finite neg m e, q => val neg m e = q
  | _, _ => False

end CFloat

/-- Heart-rate deduction in the words of the specification. -/
def d_hr (s : HealthStats) : Int :=
  if below s.avg_heart_rate 60 || above s.avg_heart_rate 100 then 15
  else if below s.avg_heart_rate 65 || above s.avg_heart_rate 95 then 5 else 0

/-- Blood-pressure deduction in the words of the specification. -/
def d_bp (s : HealthStats) : Int :=
  if above s.avg_systolic 140 || above s.avg_diastolic 90 then 20
  else if above s.avg_systolic 130 || above s.avg_diastolic 80 then 10
  else if below s.avg_systolic 90 || below s.avg_diastolic 60 then 15 else 0

/-- Blood-sugar deduction in the words of the specification. -/
def d_sugar (s : HealthStats) : Int :=
  if above s.avg_blood_sugar 200 || below s.avg_blood_sugar 70 then 25
  else if above s.avg_blood_sugar 125 then 15 else 0

/-- Temperature deduction in the words of the specification, with the decimal
    bounds 100.4 and 99.5 taken exactly. -/
def d_temp (s : HealthStats) : Int :=
  if above s.avg_temperature (502 / 5) || below s.avg_temperature 95 then 15
  else if above s.avg_temperature (199 / 2) || below s.avg_temperature 97 then 5 else 0

/-- Oxygen deduction in the words of the specification. -/
def d_oxy (s : HealthStats) : Int :=
  if below s.avg_oxygen 90 then 25 else if below s.avg_oxygen 95 then 10 else 0

/-- Steps adjustment in the words of the specification. -/
def d_steps (s : HealthStats) : Int :=
  if Int.tdiv s.total_steps s.record_count < 5000 then -10
  else if Int.tdiv s.total_steps s.record_count > 10000 then 5 else 0

/-- Clamp of an integer to `[lo, hi]`. -/
def clamp (x lo hi : Int) : Int := if x < lo then lo else if x > hi then hi else x

/-- The score formula of the specification. -/
def score_spec (s : HealthStats) : Int :=
  clamp (100 - d_hr s - d_bp s - d_sugar s - d_temp s - d_oxy s + d_steps s) 0 100

/-! ## The alert rules as the specification words them -/

/-- Heart-rate rule: severity of its alert, if any (first match wins). -/
def hr_rule (s : HealthStats) : Option Int :=
  if above s.avg_heart_rate 120 then some 4
  else if above s.avg_heart_rate 100 then some 3
  else if below s.avg_heart_rate 40 then some 4
  else if below s.avg_heart_rate 60 then some 2
  else none

/-- Blood-pressure rule. -/
def bp_rule (s : HealthStats) : Option Int :=
  if above s.avg_systolic 140 || above s.avg_diastolic 90 then some 4
  else if above s.avg_systolic 130 || above s.avg_diastolic 80 then some 3
  else if below s.avg_systolic 90 || below s.avg_diastolic 60 then some 2
  else none

/-- Blood-sugar rule. -/
def sugar_rule (s : HealthStats) : Option Int :=
  if above s.avg_blood_sugar 200 then some 4
  else if above s.avg_blood_sugar 125 then some 3
  else if below s.avg_blood_sugar 70 then some 3
  else none

/-- Temperature rule, the bound 100.4 read exactly. -/
def temp_rule (s : HealthStats) : Option Int :=
  if above s.avg_temperature (502 / 5) then some 3
  else if below s.avg_temperature 95 then some 4
  else none

/-- Oxygen rule. -/
def oxygen_rule (s : HealthStats) : Option Int :=
  if below s.avg_oxygen 90 then some 4
  else if below s.avg_oxygen 95 then some 2
  else none

/-- Activity rule over `count` records. -/
def activity_rule (count : Nat) (s : HealthStats) : Option Int :=
  if Int.tdiv s.total_steps (count : Int) < 5000 then some 2 else none

/-- Trend rule for the field `f`: at least three records, and `f` strictly
    increasing over both consecutive pairs of the last three. -/
def trend_rule (f : HealthRecord → Int) (records : List HealthRecord) : Option Int :=
  match records.reverse with
  | c :: b :: a :: _ => if f a < f b ∧ f b < f c then some 2 else none
  | _ => none

/-- Severities of the alerts of the eight rules, in the fixed rule order. -/
def rule_severities (records : List HealthRecord) (s : HealthStats) : List Int :=
  (hr_rule s).toList ++ (bp_rule s).toList ++ (sugar_rule s).toList ++ (temp_rule s).toList
    ++ (oxygen_rule s).toList ++ (activity_rule records.length s).toList
    ++ (trend_rule HealthRecord.heart_rate records).toList
    ++ (trend_rule HealthRecord.systolic_bp records).toList

/-! ## Keywords in alert messages -/

/-- A character that a formatted number can show: a digit, a sign, the point,
    or a letter of `nan` and `inf`. -/
def numeric_char (ch : Char) : Bool :=
  isdigit ch || ch = '-' || ch = '.' || ch = 'n' || ch = 'a' || ch = 'i' || ch = 'f'

/-- No occurrence of `w` starts inside `a`, whatever text follows `a`: every
    non-empty end of `a` differs from `w` before either of them ends. -/
def no_start (a w : List Char) : Bool :=
  a.tails.all (fun t => t.isEmpty || !(t.isPrefixOf w || w.isPrefixOf t))

/-- The alert of the heart-rate trend rule. -/
def hr_trend_alert : Alert :=
  { message := "Heart rate showing consistent upward trend".toList, severity := 2 }

/-- The flags of `generate_advice` when no keyword was found. -/
def no_flags : AdviceFlags :=
  { has_heart_issue := false, has_bp_issue := false, has_sugar_issue := false,
    has_oxygen_issue := false, has_activity_issue := false }

/-- The keywords `generate_advice` looks for. -/
def advice_keywords : List (List Char) :=
  ["heart rate".toList, "pressure".toList, "BP".toList, "sugar".toList, "oxygen".toList,
   "steps".toList]

/-- The keyword cannot start in the text `a` before a number nor in a number,
    and does not occur in the text `c` after it. -/
def keyword_excluded (a c w : List Char) : Bool :=
  no_start a w && (w.head?.map numeric_char == some false) && !(strstr c w)

/-- The output of `generate_advice` without any category block. -/
def advice_without_blocks : List Char :=
  advice_banner ++ advice_actions_heading ++ advice_disclaimer

/-! ## Records used for the statistics claims -/

/-- The fields of a `HealthRecord` object hold values of their C types. -/
def HealthRecord.wellTyped (r : HealthRecord) : Bool :=
  isInt32 r.heart_rate && isInt32 r.systolic_bp && isInt32 r.diastolic_bp
    && isInt32 r.blood_sugar && r.temperature.isBinary32 && isInt32 r.oxygen_level
    && isInt32 r.steps

/-- A record whose heart rate, 16777217, is not a binary32 number. -/
def record_hr_16777217 : HealthRecord :=
  { date := "2025-01-01".toList, heart_rate := 16777217, systolic_bp := 110,
    diastolic_bp := 70, blood_sugar := 90, temperature := ofInt 98, oxygen_level := 98,
    steps := 8000 }

/-- A record with every vital mid-band and the given temperature in tenths
    of a degree, as `%f` reads it. -/
def record_with_temp (tenths : Nat) : HealthRecord :=
  { date := "2025-01-01".toList, heart_rate := 72, systolic_bp := 110, diastolic_bp := 70,
    blood_sugar := 90, temperature := round32 false tenths 10 0, oxygen_level := 98,
    steps := 8000 }

/-- A record with every other vital mid-band and the given heart rate. -/
def record_with_heart_rate (n : Int) : HealthRecord :=
  { date := "2025-01-01".toList, heart_rate := n, systolic_bp := 110, diastolic_bp := 70,
    blood_sugar := 90, temperature := ofInt 98, oxygen_level := 98, steps := 8000 }

/-- Three records with temperatures 97.0, 97.1 and 97.3. -/
def temperature_records : List HealthRecord :=
  [record_with_temp 970, record_with_temp 971, record_with_temp 973]

/-- Three records with heart rates 16777216, 1 and 1. -/
def heart_rate_records : List HealthRecord :=
  [record_with_heart_rate 16777216, record_with_heart_rate 1, record_with_heart_rate 1]

/-- The running sum of `calculate_statistics` for one integer field `f`,
    started at `acc`. -/
def float_sum (f : HealthRecord → Int) (acc : CFloat) (records : List HealthRecord) : CFloat :=
  records.foldl (fun s r => add s (ofInt (f r))) acc

/-- The sum of the magnitudes of one integer field over the records. -/
def magnitude_sum (f : HealthRecord → Int) (records : List HealthRecord) : Nat :=
  (records.map (fun r => (f r).natAbs)).sum

/-! ## Rule attribution of alerts -/

/-- The eight rules of the alert engine, in their fixed order. -/
inductive Rule where
  | heart_rate | blood_pressure | blood_sugar | temperature | oxygen | activity
  | heart_rate_trend | systolic_trend
  deriving DecidableEq

/-- The rule a message announces: the one whose `sprintf` format in
    `analyze_health` starts with the leading text of the message. -/
def message_rule (message : List Char) : Option Rule :=
  if "Average heart rate is ".toList.isPrefixOf message then some Rule.heart_rate
  else if "Average BP is ".toList.isPrefixOf message then some Rule.blood_pressure
  else if "Average blood sugar is ".toList.isPrefixOf message then some Rule.blood_sugar
  else if "Average temperature is ".toList.isPrefixOf message then some Rule.temperature
  else if "Average oxygen saturation is ".toList.isPrefixOf message then some Rule.oxygen
  else if "Average daily steps: ".toList.isPrefixOf message then some Rule.activity
  else if "Heart rate showing consistent upward trend".toList.isPrefixOf message then
    some Rule.heart_rate_trend
  else if "Blood pressure showing consistent upward trend".toList.isPrefixOf message then
    some Rule.systolic_trend
  else none

/-- What an alert shows: the rule its message announces, and its severity. -/
def alert_outcome (a : Alert) : Option (Rule × Int) :=
  (message_rule a.message).map (fun r => (r, a.severity))

/-- The alerts of the eight rules as the specification words them: in the
    fixed rule order, each rule with the severity of its first matching
    condition, or nothing. -/
def rule_outcomes (records : List HealthRecord) (s : HealthStats) : List (Rule × Int) :=
  (hr_rule s).toList.map (fun v => (Rule.heart_rate, v))
    ++ (bp_rule s).toList.map (fun v => (Rule.blood_pressure, v))
    ++ (sugar_rule s).toList.map (fun v => (Rule.blood_sugar, v))
    ++ (temp_rule s).toList.map (fun v => (Rule.temperature, v))
    ++ (oxygen_rule s).toList.map (fun v => (Rule.oxygen, v))
    ++ (activity_rule records.length s).toList.map (fun v => (Rule.activity, v))
    ++ (trend_rule HealthRecord.heart_rate records).toList.map
        (fun v => (Rule.heart_rate_trend, v))
    ++ (trend_rule HealthRecord.systolic_bp records).toList.map
        (fun v => (Rule.systolic_trend, v))

/-- A record with the given heart rate, systolic pressure and steps, the
    other vitals mid-band. -/
def record_hr_sys_steps (hr sys steps : Int) : HealthRecord :=
  { date := "2025-01-01".toList, heart_rate := hr, systolic_bp := sys, diastolic_bp := 70,
    blood_sugar := 90, temperature := ofInt 98, oxygen_level := 98, steps := steps }

/-- Three days with a high, rising heart rate, a falling systolic pressure
    and few steps. -/
def rising_hr_records : List HealthRecord :=
  [record_hr_sys_steps 100 130 3000, record_hr_sys_steps 110 120 3000,
   record_hr_sys_steps 120 110 3000]

/-! ## Menu option 5 -/

/-- The warning of menu option 5 when no alert is stored. -/
def advice_warning : List Char :=
  "[WARNING] No analysis performed yet. Please analyze data first (Option 3).\n".toList

/-- Case 5 of the menu in `main`: the text printed for the stored alerts;
    `generate_advice` is called only when `alert_count` is not 0. -/
def main_case_5 (alerts : List Alert) : List Char :=
  if alerts.length = 0 then advice_warning else generate_advice alerts

/-! # Theorems -/

/-! ## Facts about comparisons -/

namespace CFloat

theorem scaled_cast (neg : Bool) (m : Nat) (e k : Int) (h : k ≤ e) :
    ((scaled neg m e k : Int) : ℚ) = val neg m e * (2 : ℚ) ^ (-k) := by
  have h2 : ((2 : ℚ) ^ (e - k).toNat) = (2 : ℚ) ^ e * (2 : ℚ) ^ (-k) := by
    rw [← zpow_add₀ (by norm_num : (2 : ℚ) ≠ 0), ← zpow_natCast]
    congr 1
    omega
  unfold scaled val
  push_cast
  rw [h2]
  split <;> ring

theorem lt_finite (n1 : Bool) (m1 : Nat) (e1 : Int) (n2 : Bool) (m2 : Nat) (e2 : Int) :
    lt (finite n1 m1 e1) (finite n2 m2 e2) = decide (val n1 m1 e1 < val n2 m2 e2) := by
  have hpos : (0 : ℚ) < (2 : ℚ) ^ (-(min e1 e2)) := by positivity
  have key : scaled n1 m1 e1 (min e1 e2) < scaled n2 m2 e2 (min e1 e2)
      ↔ val n1 m1 e1 < val n2 m2 e2 := by
    rw [← Int.cast_lt (R := ℚ), scaled_cast _ _ _ _ (min_le_left e1 e2),
      scaled_cast _ _ _ _ (min_le_right e1 e2)]
    exact mul_lt_mul_right hpos
  simp only [lt, key]

theorem val_lit (n : Nat) : val false n 0 = (n : ℚ) := by
  simp [val]

theorem lt_lit (x : CFloat) (n : Nat) : lt x (lit n) = below x (n : ℚ) := by
  cases x with
  | finite neg m e => simp only [lit, lt_finite, below, val_lit]
  | inf n1 => simp [lit, lt, below]
  | nan => simp [lit, lt, below]

theorem gt_lit (x : CFloat) (n : Nat) : gt x (lit n) = above x (n : ℚ) := by
  cases x with
  | finite neg m e => simp only [gt, lit, lt_finite, above, val_lit]
  | inf n1 => simp [gt, lit, lt, above]
  | nan => simp [gt, lit, lt, above]

theorem gt_c99_5 (x : CFloat) : gt x c99_5 = above x (199 / 2) := by
  have h : val false 199 (-1) = 199 / 2 := by norm_num [val]
  cases x with
  | finite neg m e => simp only [gt, c99_5, lt_finite, above, h]
  | inf n1 => simp [gt, c99_5, lt, above]
  | nan => simp [gt, c99_5, lt, above]

theorem gt_c100_4 (x : CFloat) (hx : x.isBinary32 = true) :
    gt x c100_4 = above x (502 / 5) := by
  cases x with
  | inf n1 => simp [gt, c100_4, lt, above]
  | nan => simp [gt, c100_4, lt, above]
  | finite neg m e =>
    have hm : m < 2 ^ 24 := by
      simp only [isBinary32, Bool.and_eq_true, decide_eq_true_eq] at hx
      exact hx.1.1.1
    have hD : val false 3532510957718733 (-45) = 3532510957718733 / 35184372088832 := by
      norm_num [val]
    simp only [gt, c100_4, lt_finite, above, hD]
    rw [decide_eq_decide]
    constructor
    · intro h
      exact lt_trans (by norm_num) h
    · intro h
      by_contra hcon
      rw [not_lt] at hcon
      have hmq : (m : ℚ) < 16777216 := by exact_mod_cast hm
      have hm0 : (0 : ℚ) ≤ (m : ℚ) := Nat.cast_nonneg m
      have h2pos : (0 : ℚ) < (2 : ℚ) ^ e := by positivity
      cases neg with
      | true =>
        have : val true m e ≤ 0 := by
          simp only [val, if_true]
          nlinarith
        linarith
      | false =>
        have hv : val false m e = (m : ℚ) * (2 : ℚ) ^ e := by simp [val]
        rw [hv] at h hcon
        rcases le_or_lt (-17) e with he | he
        · obtain ⟨n, hn⟩ : ∃ n : Nat, e = (n : Int) - 17 := ⟨(e + 17).toNat, by omega⟩
          have hpow : (2 : ℚ) ^ e = (2 : ℚ) ^ n / 131072 := by
            rw [hn, zpow_sub₀ (by norm_num : (2 : ℚ) ≠ 0), zpow_natCast]
            norm_num
          rw [hpow] at h hcon
          have hN : ((m * 2 ^ n : Nat) : ℚ) = (m : ℚ) * (2 : ℚ) ^ n := by push_cast; ring
          have h1 : (13159628 : ℚ) < ((m * 2 ^ n : Nat) : ℚ) := by
            rw [hN]
            have := h
            rw [mul_div_assoc'] at this
            rw [lt_div_iff₀ (by norm_num)] at this
            linarith
          have h2 : (13159629 : ℚ) ≤ ((m * 2 ^ n : Nat) : ℚ) := by
            have : 13159628 < m * 2 ^ n := by exact_mod_cast h1
            exact_mod_cast this
          rw [hN] at h2
          rw [mul_div_assoc', div_le_iff₀ (by norm_num)] at hcon
          linarith
        · have hle : (2 : ℚ) ^ e ≤ (2 : ℚ) ^ (-18 : Int) :=
            zpow_le_zpow_right₀ (by norm_num) (by omega)
          have h18 : (2 : ℚ) ^ (-18 : Int) = 1 / 262144 := by norm_num
          rw [h18] at hle
          have : (m : ℚ) * (2 : ℚ) ^ e ≤ 16777216 * (1 / 262144) :=
            mul_le_mul hmq.le hle h2pos.le (by norm_num)
          linarith

theorem gt_false_of_le (x : CFloat) (n1 : Bool) (m1 : Nat) (e1 : Int) (n2 : Bool) (m2 : Nat)
    (e2 : Int) (h : le x (finite n1 m1 e1) = true) (hc : val n1 m1 e1 ≤ val n2 m2 e2) :
    gt x (finite n2 m2 e2) = false := by
  cases x with
  | nan => simp [le] at h
  | inf n => simpa [le, gt, lt] using h
  | finite n m e =>
    simp only [le, lt_finite, Bool.not_eq_true', decide_eq_false_iff_not, not_lt] at h
    simp only [gt, lt_finite, decide_eq_false_iff_not, not_lt]
    exact le_trans h hc

theorem lt_false_of_ge (x : CFloat) (n1 : Bool) (m1 : Nat) (e1 : Int) (n2 : Bool) (m2 : Nat)
    (e2 : Int) (h : ge x (finite n1 m1 e1) = true) (hc : val n2 m2 e2 ≤ val n1 m1 e1) :
    lt x (finite n2 m2 e2) = false := by
  cases x with
  | nan => simp [ge, le] at h
  | inf n => simpa [ge, le, lt] using h
  | finite n m e =>
    simp only [ge, le, lt_finite, Bool.not_eq_true', decide_eq_false_iff_not, not_lt] at h
    simp only [lt_finite, decide_eq_false_iff_not, not_lt]
    exact le_trans hc h

theorem gt_false_of_lt (x : CFloat) (n1 : Bool) (m1 : Nat) (e1 : Int) (n2 : Bool) (m2 : Nat)
    (e2 : Int) (h : lt x (finite n1 m1 e1) = true) (hc : val n1 m1 e1 ≤ val n2 m2 e2) :
    gt x (finite n2 m2 e2) = false := by
  cases x with
  | nan => simp [lt] at h
  | inf n => simpa [gt, lt] using h
  | finite n m e =>
    simp only [lt_finite, decide_eq_true_eq] at h
    simp only [gt, lt_finite, decide_eq_false_iff_not, not_lt]
    exact le_trans h.le hc

theorem above_mono (x : CFloat) (c1 c2 : ℚ) (hc : c1 ≤ c2) (h : above x c2 = true) :
    above x c1 = true := by
  cases x with
  | nan => simp [above] at h
  | inf n => simpa [above] using h
  | finite n m e =>
    simp only [above, decide_eq_true_eq] at h ⊢
    exact lt_of_le_of_lt hc h

theorem below_mono (x : CFloat) (c1 c2 : ℚ) (hc : c1 ≤ c2) (h : below x c1 = true) :
    below x c2 = true := by
  cases x with
  | nan => simp [below] at h
  | inf n => simpa [below] using h
  | finite n m e =>
    simp only [below, decide_eq_true_eq] at h ⊢
    exact lt_of_lt_of_le h hc

end CFloat

/-! ## Alert engine -/

theorem heart_rate_analysis_severity (stats : HealthStats) :
    (heart_rate_analysis stats).map Alert.severity = (hr_rule stats).toList := by
  unfold heart_rate_analysis hr_rule
  simp only [lt_lit, gt_lit, Nat.cast_ofNat]
  by_cases h1 : above stats.avg_heart_rate 100 = true
  · by_cases h2 : above stats.avg_heart_rate 120 = true <;> simp [h1, h2]
  · have h2 : ¬ above stats.avg_heart_rate 120 = true :=
      fun h => h1 (above_mono _ _ _ (by norm_num) h)
    by_cases h3 : below stats.avg_heart_rate 60 = true
    · by_cases h4 : below stats.avg_heart_rate 40 = true <;> simp [h1, h2, h3, h4]
    · have h4 : ¬ below stats.avg_heart_rate 40 = true :=
        fun h => h3 (below_mono _ _ _ (by norm_num) h)
      simp [h1, h2, h3, h4]

theorem blood_pressure_analysis_severity (stats : HealthStats) :
    (blood_pressure_analysis stats).map Alert.severity = (bp_rule stats).toList := by
  unfold blood_pressure_analysis bp_rule
  simp only [lt_lit, gt_lit, Nat.cast_ofNat]
  split_ifs <;> rfl

theorem blood_sugar_analysis_severity (stats : HealthStats) :
    (blood_sugar_analysis stats).map Alert.severity = (sugar_rule stats).toList := by
  unfold blood_sugar_analysis sugar_rule
  simp only [lt_lit, gt_lit, Nat.cast_ofNat]
  split_ifs <;> rfl

theorem temperature_analysis_severity (stats : HealthStats)
    (hT : stats.avg_temperature.isBinary32 = true) :
    (temperature_analysis stats).map Alert.severity = (temp_rule stats).toList := by
  unfold temperature_analysis temp_rule
  simp only [lt_lit, gt_c100_4 _ hT, Nat.cast_ofNat]
  split_ifs <;> rfl

theorem oxygen_analysis_severity (stats : HealthStats) :
    (oxygen_analysis stats).map Alert.severity = (oxygen_rule stats).toList := by
  unfold oxygen_analysis oxygen_rule
  simp only [lt_lit, Nat.cast_ofNat]
  split_ifs <;> rfl

theorem activity_analysis_severity (count : Nat) (stats : HealthStats) :
    (activity_analysis (count : Int) stats).map Alert.severity
      = (activity_rule count stats).toList := by
  unfold activity_analysis activity_rule
  simp only []
  split_ifs <;> rfl

theorem trend_flags_last_three (pre : List HealthRecord) (a b c : HealthRecord) :
    trend_flags (pre ++ [a, b, c])
      = (decide (a.heart_rate < b.heart_rate ∧ b.heart_rate < c.heart_rate),
         decide (a.systolic_bp < b.systolic_bp ∧ b.systolic_bp < c.systolic_bp)) := by
  have hlen : (pre ++ [a, b, c]).length - 3 = pre.length := by simp
  have g0 : (pre ++ [a, b, c]).getD pre.length HealthRecord.zero = a := by
    rw [List.getD_eq_getElem?_getD, List.getElem?_append_right (by omega)]
    have : pre.length - pre.length = 0 := by omega
    rw [this]; rfl
  have g1 : (pre ++ [a, b, c]).getD (pre.length + 1) HealthRecord.zero = b := by
    rw [List.getD_eq_getElem?_getD, List.getElem?_append_right (by omega)]
    have : pre.length + 1 - pre.length = 1 := by omega
    rw [this]; rfl
  have g2 : (pre ++ [a, b, c]).getD (pre.length + 1 + 1) HealthRecord.zero = c := by
    rw [List.getD_eq_getElem?_getD, List.getElem?_append_right (by omega)]
    have : pre.length + 1 + 1 - pre.length = 2 := by omega
    rw [this]; rfl
  unfold trend_flags
  rw [hlen]
  simp only [List.range', List.foldl, g0, g1, g2]
  by_cases h1 : a.heart_rate < b.heart_rate <;> by_cases h2 : b.heart_rate < c.heart_rate <;>
    by_cases h3 : a.systolic_bp < b.systolic_bp <;>
    by_cases h4 : b.systolic_bp < c.systolic_bp <;>
    simp [h1, h2, h3, h4, not_le.mpr, not_lt.mp]

theorem exists_last_three (records : List HealthRecord) (h : 3 ≤ records.length) :
    ∃ pre a b c, records = pre ++ [a, b, c] := by
  have hd : (records.drop (records.length - 3)).length = 3 := by
    rw [List.length_drop]; omega
  obtain ⟨a, b, c, hdr⟩ := List.length_eq_three.mp hd
  exact ⟨records.take (records.length - 3), a, b, c, by rw [← hdr, List.take_append_drop]⟩

theorem trend_rule_last_three (f : HealthRecord → Int) (pre : List HealthRecord)
    (a b c : HealthRecord) :
    trend_rule f (pre ++ [a, b, c]) = if f a < f b ∧ f b < f c then some 2 else none := by
  simp [trend_rule]

theorem trend_rule_short (f : HealthRecord → Int) (records : List HealthRecord)
    (h : records.length < 3) : trend_rule f records = none := by
  unfold trend_rule
  have hl : records.reverse.length < 3 := by simpa using h
  generalize records.reverse = l at hl
  rcases l with _ | ⟨x, _ | ⟨y, _ | ⟨z, l⟩⟩⟩
  · rfl
  · rfl
  · rfl
  · simp only [List.length_cons] at hl
    omega

theorem hr_trend_analysis_severity (records : List HealthRecord) :
    (hr_trend_analysis records).map Alert.severity
      = (trend_rule HealthRecord.heart_rate records).toList := by
  unfold hr_trend_analysis
  by_cases h : 3 ≤ records.length
  · obtain ⟨pre, a, b, c, rfl⟩ := exists_last_three records h
    rw [trend_flags_last_three, trend_rule_last_three]
    simp only [ge_iff_le, h, if_true]
    by_cases hc : a.heart_rate < b.heart_rate ∧ b.heart_rate < c.heart_rate <;> simp [hc]
  · rw [trend_rule_short _ _ (by omega)]
    simp [h]

theorem bp_trend_analysis_severity (records : List HealthRecord) :
    (bp_trend_analysis records).map Alert.severity
      = (trend_rule HealthRecord.systolic_bp records).toList := by
  unfold bp_trend_analysis
  by_cases h : 3 ≤ records.length
  · obtain ⟨pre, a, b, c, rfl⟩ := exists_last_three records h
    rw [trend_flags_last_three, trend_rule_last_three]
    simp only [ge_iff_le, h, if_true]
    by_cases hc : a.systolic_bp < b.systolic_bp ∧ b.systolic_bp < c.systolic_bp <;> simp [hc]
  · rw [trend_rule_short _ _ (by omega)]
    simp [h]

/-! ## Rule attribution of alerts -/

theorem message_rule_heart_rate (rest : List Char) :
    message_rule ("Average heart rate is ".toList ++ rest) = some Rule.heart_rate := by
  simp [message_rule]

theorem message_rule_blood_pressure (rest : List Char) :
    message_rule ("Average BP is ".toList ++ rest) = some Rule.blood_pressure := by
  simp [message_rule]

theorem message_rule_blood_sugar (rest : List Char) :
    message_rule ("Average blood sugar is ".toList ++ rest) = some Rule.blood_sugar := by
  simp [message_rule]

theorem message_rule_temperature (rest : List Char) :
    message_rule ("Average temperature is ".toList ++ rest) = some Rule.temperature := by
  simp [message_rule]

theorem message_rule_oxygen (rest : List Char) :
    message_rule ("Average oxygen saturation is ".toList ++ rest) = some Rule.oxygen := by
  simp [message_rule]

theorem message_rule_activity (rest : List Char) :
    message_rule ("Average daily steps: ".toList ++ rest) = some Rule.activity := by
  simp [message_rule]

theorem message_rule_heart_rate_trend :
    message_rule "Heart rate showing consistent upward trend".toList
      = some Rule.heart_rate_trend := by
  simp [message_rule]

theorem message_rule_systolic_trend :
    message_rule "Blood pressure showing consistent upward trend".toList
      = some Rule.systolic_trend := by
  simp [message_rule]

theorem heart_rate_analysis_rule (stats : HealthStats) :
    ∀ a ∈ heart_rate_analysis stats, message_rule a.message = some Rule.heart_rate := by
  intro a ha
  unfold heart_rate_analysis at ha
  split_ifs at ha <;> first
    | exact absurd ha (List.not_mem_nil _)
    | (rw [List.mem_singleton] at ha
       rw [ha]
       simp only [List.append_assoc]
       exact message_rule_heart_rate _)

theorem blood_pressure_analysis_rule (stats : HealthStats) :
    ∀ a ∈ blood_pressure_analysis stats, message_rule a.message = some Rule.blood_pressure := by
  intro a ha
  unfold blood_pressure_analysis at ha
  split_ifs at ha <;> first
    | exact absurd ha (List.not_mem_nil _)
    | (rw [List.mem_singleton] at ha
       rw [ha]
       simp only [List.append_assoc]
       exact message_rule_blood_pressure _)

theorem blood_sugar_analysis_rule (stats : HealthStats) :
    ∀ a ∈ blood_sugar_analysis stats, message_rule a.message = some Rule.blood_sugar := by
  intro a ha
  unfold blood_sugar_analysis at ha
  split_ifs at ha <;> first
    | exact absurd ha (List.not_mem_nil _)
    | (rw [List.mem_singleton] at ha
       rw [ha]
       simp only [List.append_assoc]
       exact message_rule_blood_sugar _)

theorem temperature_analysis_rule (stats : HealthStats) :
    ∀ a ∈ temperature_analysis stats, message_rule a.message = some Rule.temperature := by
  intro a ha
  unfold temperature_analysis at ha
  split_ifs at ha <;> first
    | exact absurd ha (List.not_mem_nil _)
    | (rw [List.mem_singleton] at ha
       rw [ha]
       simp only [List.append_assoc]
       exact message_rule_temperature _)

theorem oxygen_analysis_rule (stats : HealthStats) :
    ∀ a ∈ oxygen_analysis stats, message_rule a.message = some Rule.oxygen := by
  intro a ha
  unfold oxygen_analysis at ha
  split_ifs at ha <;> first
    | exact absurd ha (List.not_mem_nil _)
    | (rw [List.mem_singleton] at ha
       rw [ha]
       simp only [List.append_assoc]
       exact message_rule_oxygen _)

theorem activity_analysis_rule (count : Int) (stats : HealthStats) :
    ∀ a ∈ activity_analysis count stats, message_rule a.message = some Rule.activity := by
  intro a ha
  simp only [activity_analysis] at ha
  split_ifs at ha <;> first
    | exact absurd ha (List.not_mem_nil _)
    | (rw [List.mem_singleton] at ha
       rw [ha]
       simp only [List.append_assoc]
       exact message_rule_activity _)

theorem hr_trend_analysis_rule (records : List HealthRecord) :
    ∀ a ∈ hr_trend_analysis records, message_rule a.message = some Rule.heart_rate_trend := by
  intro a ha
  unfold hr_trend_analysis at ha
  split_ifs at ha <;> first
    | exact absurd ha (List.not_mem_nil _)
    | (rw [List.mem_singleton] at ha
       rw [ha]
       exact message_rule_heart_rate_trend)

theorem bp_trend_analysis_rule (records : List HealthRecord) :
    ∀ a ∈ bp_trend_analysis records, message_rule a.message = some Rule.systolic_trend := by
  intro a ha
  unfold bp_trend_analysis at ha
  split_ifs at ha <;> first
    | exact absurd ha (List.not_mem_nil _)
    | (rw [List.mem_singleton] at ha
       rw [ha]
       exact message_rule_systolic_trend)

theorem map_alert_outcome (block : List Alert) (r : Rule) (severities : List Int)
    (hsev : block.map Alert.severity = severities)
    (hrule : ∀ a ∈ block, message_rule a.message = some r) :
    block.map alert_outcome = (severities.map (fun v => (r, v))).map some := by
  subst hsev
  rw [List.map_map, List.map_map]
  apply List.map_congr_left
  intro a ha
  simp [alert_outcome, hrule a ha]

/-- C4: for every `HealthStats` (holding values of its C types) and every
    record sequence of length `count >= 1`, `analyze_health` returns the alerts
    of the eight rules in the fixed order heart rate, blood pressure, blood
    sugar, temperature, oxygen, activity, heart-rate trend, systolic trend:
    the list of (rule announced by the message, severity) of its alerts is
    the list `rule_outcomes`, in which each rule contributes zero or one
    entry with the severity of its first matching condition; in particular
    the severities are `rule_severities`. -/
theorem analyze_health_rules (records : List HealthRecord) (stats : HealthStats)
    (htyped : stats.wellTyped = true) (_hcount : 1 ≤ records.length) :
    (analyze_health records stats).map alert_outcome
        = (rule_outcomes records stats).map some
      ∧ (analyze_health records stats).map Alert.severity = rule_severities records stats := by
  have hT : stats.avg_temperature.isBinary32 = true := by
    simp only [HealthStats.wellTyped, Bool.and_eq_true] at htyped
    exact htyped.1.1.1.2
  constructor
  · simp only [analyze_health, rule_outcomes, List.map_append]
    rw [map_alert_outcome _ _ _ (heart_rate_analysis_severity stats)
          (heart_rate_analysis_rule stats),
      map_alert_outcome _ _ _ (blood_pressure_analysis_severity stats)
          (blood_pressure_analysis_rule stats),
      map_alert_outcome _ _ _ (blood_sugar_analysis_severity stats)
          (blood_sugar_analysis_rule stats),
      map_alert_outcome _ _ _ (temperature_analysis_severity stats hT)
          (temperature_analysis_rule stats),
      map_alert_outcome _ _ _ (oxygen_analysis_severity stats) (oxygen_analysis_rule stats),
      map_alert_outcome _ _ _ (activity_analysis_severity records.length stats)
          (activity_analysis_rule _ stats),
      map_alert_outcome _ _ _ (hr_trend_analysis_severity records)
          (hr_trend_analysis_rule records),
      map_alert_outcome _ _ _ (bp_trend_analysis_severity records)
          (bp_trend_analysis_rule records)]
  · simp only [analyze_health, rule_severities, List.map_append, heart_rate_analysis_severity,
      blood_pressure_analysis_severity, blood_sugar_analysis_severity,
      temperature_analysis_severity _ hT, oxygen_analysis_severity, activity_analysis_severity,
      hr_trend_analysis_severity, bp_trend_analysis_severity]

theorem analyze_health_rules_witness :
    (calculate_statistics rising_hr_records).wellTyped = true
      ∧ 1 ≤ rising_hr_records.length
      ∧ (analyze_health rising_hr_records (calculate_statistics rising_hr_records)).map
            alert_outcome
          = [some (Rule.heart_rate, 3), some (Rule.activity, 2),
             some (Rule.heart_rate_trend, 2)]
      ∧ (rule_outcomes rising_hr_records (calculate_statistics rising_hr_records)).map some
          = [some (Rule.heart_rate, 3), some (Rule.activity, 2),
             some (Rule.heart_rate_trend, 2)] :=
  ⟨by decide!, by decide, by decide!,
    (analyze_health_rules rising_hr_records (calculate_statistics rising_hr_records)
      (by decide!) (by decide)).1.symm.trans (by decide!)⟩

/-- C5: for every stats whose `avg_heart_rate` is greater than 120 and every
    record sequence with `count >= 1`, the heart-rate average rule of
    `analyze_health` produces exactly one alert, of severity 4 (so none of
    severity 3), and it is the first alert of the result. -/
theorem heart_rate_above_120 (records : List HealthRecord) (stats : HealthStats)
    (hhr : above stats.avg_heart_rate 120 = true) (_hcount : 1 ≤ records.length) :
    ∃ a : Alert, heart_rate_analysis stats = [a] ∧ a.severity = 4
      ∧ (∀ b ∈ heart_rate_analysis stats, b.severity ≠ 3)
      ∧ analyze_health records stats
          = a :: (blood_pressure_analysis stats ++ blood_sugar_analysis stats
            ++ temperature_analysis stats ++ oxygen_analysis stats
            ++ activity_analysis (records.length : Int) stats
            ++ hr_trend_analysis records ++ bp_trend_analysis records) := by
  have h120 : gt stats.avg_heart_rate (lit 120) = true := by
    rw [gt_lit]; simpa using hhr
  have h100 : gt stats.avg_heart_rate (lit 100) = true := by
    rw [gt_lit]; simpa using above_mono _ 100 120 (by norm_num) hhr
  have hA : heart_rate_analysis stats
      = [{ message := "Average heart rate is ".toList ++ fmt_f 0 stats.avg_heart_rate
            ++ " BPM - Possible tachycardia detected".toList,
           severity := 4 }] := by
    simp only [heart_rate_analysis, h100, h120, if_true]
  refine ⟨_, hA, rfl, ?_, ?_⟩
  · intro b hb
    rw [hA, List.mem_singleton] at hb
    rw [hb]
    show (4 : Int) ≠ 3
    decide
  · simp only [analyze_health, hA, List.cons_append, List.nil_append, List.append_assoc]

theorem heart_rate_above_120_witness :
    ∃ a : Alert, heart_rate_analysis (stats_with_hr (ofInt 125)) = [a] ∧ a.severity = 4
      ∧ (∀ b ∈ heart_rate_analysis (stats_with_hr (ofInt 125)), b.severity ≠ 3)
      ∧ analyze_health [HealthRecord.zero] (stats_with_hr (ofInt 125))
          = a :: (blood_pressure_analysis (stats_with_hr (ofInt 125))
            ++ blood_sugar_analysis (stats_with_hr (ofInt 125))
            ++ temperature_analysis (stats_with_hr (ofInt 125))
            ++ oxygen_analysis (stats_with_hr (ofInt 125))
            ++ activity_analysis (([HealthRecord.zero] : List HealthRecord).length : Int)
                (stats_with_hr (ofInt 125))
            ++ hr_trend_analysis [HealthRecord.zero] ++ bp_trend_analysis [HealthRecord.zero]) :=
  heart_rate_above_120 [HealthRecord.zero] (stats_with_hr (ofInt 125))
    (by rw [show (120 : ℚ) = ((120 : ℕ) : ℚ) by norm_num, ← gt_lit]; decide!) (by decide)

theorem text_lines_ne_nil (c : Char) (cs : List Char) : text_lines (c :: cs) ≠ [] := by
  unfold text_lines
  split
  · simp
  · split <;> simp

theorem fgets_take_nil (k : Nat) : fgets_take k [] = ([], []) := by
  cases k <;> rfl

theorem text_lines_eq_fgets_take (f : List Char) :
    ∀ k : Nat, f ≠ [] → (∀ l ls, text_lines f = l :: ls → l.length ≤ k) →
      text_lines f = (fgets_take k f).1 :: text_lines (fgets_take k f).2 := by
  induction f with
  | nil => intro k h; exact absurd rfl h
  | cons c cs ih =>
    intro k _ hk
    by_cases hc : c = '\n'
    · have htl : text_lines (c :: cs) = [c] :: text_lines cs := by
        simp [text_lines, hc]
      have hk1 := hk _ _ htl
      obtain ⟨k', rfl⟩ : ∃ k', k = k' + 1 := ⟨k - 1, by simp at hk1; omega⟩
      rw [htl]
      simp [fgets_take, hc]
    · cases cs with
      | nil =>
        have htl : text_lines [c] = [[c]] := by simp [text_lines, hc]
        have hk1 := hk _ _ htl
        obtain ⟨k', rfl⟩ : ∃ k', k = k' + 1 := ⟨k - 1, by simp at hk1; omega⟩
        rw [htl]
        simp [fgets_take, hc, fgets_take_nil, text_lines]
      | cons d ds =>
        obtain ⟨l, ls, hls⟩ : ∃ l ls, text_lines (d :: ds) = l :: ls := by
          cases h : text_lines (d :: ds) with
          | nil => exact absurd h (text_lines_ne_nil d ds)
          | cons l ls => exact ⟨l, ls, rfl⟩
        have htl : text_lines (c :: d :: ds) = (c :: l) :: ls := by
          rw [text_lines, if_neg hc, hls]
        have hk1 := hk _ _ htl
        obtain ⟨k', rfl⟩ : ∃ k', k = k' + 1 := ⟨k - 1, by simp at hk1; omega⟩
        have ih' := ih k' (by simp) (by
          intro l' ls' h'
          rw [hls] at h'
          simp only [List.cons.injEq] at h'
          rw [← h'.1]
          simp at hk1
          omega)
        rw [htl]
        rw [hls] at ih'
        simp only [List.cons.injEq] at ih'
        simp only [fgets_take, if_neg hc]
        rw [← ih'.1, ← ih'.2]

theorem fgets_take_length (k : Nat) (f : List Char) :
    ((fgets_take k f).2).length ≤ f.length ∧ (0 < k → f ≠ [] → (fgets_take k f).2.length < f.length) := by
  induction k generalizing f with
  | zero => simp [fgets_take]
  | succ k ih =>
    cases f with
    | nil => simp [fgets_take]
    | cons c cs =>
      by_cases hc : c = '\n'
      · simp [fgets_take, hc]
      · simp only [fgets_take, if_neg hc, List.length_cons]
        have := (ih cs).1
        constructor
        · omega
        · intro _ _; omega

theorem read_lines_fuel_eq_text_lines (n : Nat) :
    ∀ f : List Char, f.length ≤ n → (∀ l ∈ text_lines f, l.length ≤ 511) →
      read_lines_fuel n f = text_lines f := by
  induction n with
  | zero =>
    intro f hf _
    have : f = [] := List.length_eq_zero.mp (by omega)
    subst this
    rfl
  | succ n ih =>
    intro f hf hl
    cases f with
    | nil => rfl
    | cons c cs =>
      have ht := text_lines_eq_fgets_take (c :: cs) 511 (by simp) (by
        intro l ls h
        exact hl l (by rw [h]; simp))
      have hlen := (fgets_take_length 511 (c :: cs)).2 (by norm_num) (by simp)
      have h511 : MAX_LINE - 1 = 511 := rfl
      simp only [read_lines_fuel, fgets, h511]
      rw [ht]
      congr 1
      apply ih
      · simp only [List.length_cons] at hf hlen
        omega
      · intro l hmem
        exact hl l (by rw [ht]; exact List.mem_cons_of_mem _ hmem)

theorem read_lines_eq_text_lines (f : List Char) (hl : ∀ l ∈ text_lines f, l.length ≤ 511) :
    read_lines f = text_lines f :=
  read_lines_fuel_eq_text_lines f.length f (le_refl _) hl

theorem read_lines_fuel_stable (n : Nat) :
    ∀ (m : Nat) (f : List Char), f.length ≤ n → f.length ≤ m →
      read_lines_fuel n f = read_lines_fuel m f := by
  induction n with
  | zero =>
    intro m f hf _
    have : f = [] := List.length_eq_zero.mp (by omega)
    subst this
    cases m <;> rfl
  | succ n ih =>
    intro m f hn hm
    cases f with
    | nil => cases m <;> rfl
    | cons c cs =>
      obtain ⟨m', rfl⟩ : ∃ m', m = m' + 1 := ⟨m - 1, by simp at hm; omega⟩
      have h511 : MAX_LINE - 1 = 511 := rfl
      have hlen := (fgets_take_length 511 (c :: cs)).2 (by norm_num) (by simp)
      simp only [read_lines_fuel, fgets, h511]
      congr 1
      simp only [List.length_cons] at hn hm hlen
      exact ih m' _ (by omega) (by omega)

theorem takeWhile_append_of_all {α : Type} (p : α → Bool) (a b : List α)
    (ha : ∀ x ∈ a, p x = true) (hb : ∀ x ∈ b, p x = false) :
    (a ++ b).takeWhile p = a := by
  induction a with
  | nil =>
    cases b with
    | nil => rfl
    | cons x xs => simp [List.takeWhile, hb x (by simp)]
  | cons x xs ih =>
    rw [List.cons_append, List.takeWhile_cons, ha x (by simp), if_pos rfl,
      ih (fun y hy => ha y (List.mem_cons_of_mem _ hy))]

theorem chomp_eq_strip_eol (l : List Char) (h : line_plain l = true) :
    chomp l = strip_eol l := by
  simp only [line_plain, Bool.and_eq_true, List.all_eq_true, decide_eq_true_eq] at h
  obtain ⟨⟨_, hnul⟩, hcr⟩ := h
  have hc : cstr l = l := by
    unfold cstr
    rw [List.takeWhile_eq_self_iff]
    intro x hx
    simpa using hnul x hx
  unfold chomp
  rw [hc]
  have hsplit : l = strip_eol l
      ++ (l.reverse.takeWhile (fun c => c = '\r' || c = '\n')).reverse := by
    unfold strip_eol
    rw [← List.reverse_append, List.takeWhile_append_dropWhile, List.reverse_reverse]
  conv_lhs => rw [hsplit]
  apply takeWhile_append_of_all
  · intro x hx
    simpa using hcr x hx
  · intro x hx
    rw [List.mem_reverse] at hx
    have := List.mem_takeWhile_imp hx
    simp only [Bool.or_eq_true, decide_eq_true_eq] at this
    rcases this with h1 | h1 <;> simp [h1]

/-- The test of the loop body of `load_csv_data` that the buffer adds a record. -/
theorem csv_step_length (buf : List Char) (records : List HealthRecord) :
    (csv_step buf records).length
      = records.length
        + (if 5 ≤ (chomp buf).length ∧ 5 ≤ (sscanf_csv (chomp buf) HealthRecord.zero).1
            then 1 else 0) := by
  unfold csv_step
  by_cases h1 : (chomp buf).length < 5
  · rw [if_pos h1, if_neg (by omega)]
    rfl
  · by_cases h2 : (sscanf_csv (chomp buf) HealthRecord.zero).1 ≥ 5
    · rw [if_neg h1]
      show (if (sscanf_csv (chomp buf) HealthRecord.zero).1 ≥ 5
        then records ++ [(sscanf_csv (chomp buf) HealthRecord.zero).2] else records).length = _
      rw [if_pos h2, if_pos ⟨by omega, h2⟩, List.length_append, List.length_singleton]
    · rw [if_neg h1]
      show (if (sscanf_csv (chomp buf) HealthRecord.zero).1 ≥ 5
        then records ++ [(sscanf_csv (chomp buf) HealthRecord.zero).2] else records).length = _
      rw [if_neg h2, if_neg (fun h => h2 h.2)]
      rfl

theorem csv_loop_length (ls : List (List Char)) :
    ∀ records : List HealthRecord, records.length ≤ 1000 →
      (csv_loop ls records).length
        = min 1000 (records.length + (ls.filter (fun buf =>
            decide (5 ≤ (chomp buf).length)
              && decide (5 ≤ (sscanf_csv (chomp buf) HealthRecord.zero).1))).length) := by
  induction ls with
  | nil => intro records h; simp [csv_loop]; omega
  | cons buf rest ih =>
    intro records h
    unfold csv_loop
    by_cases hlt : records.length < MAX_RECORDS
    · have hlt' : records.length < 1000 := hlt
      rw [if_pos hlt, ih _ (by rw [csv_step_length]; split <;> omega), csv_step_length]
      by_cases hc : 5 ≤ (chomp buf).length ∧ 5 ≤ (sscanf_csv (chomp buf) HealthRecord.zero).1
      · simp only [hc, and_self, if_true, List.filter, decide_True, Bool.and_self,
          List.length_cons]
        omega
      · have hd : (decide (5 ≤ (chomp buf).length)
            && decide (5 ≤ (sscanf_csv (chomp buf) HealthRecord.zero).1)) = false := by
          simpa using hc
        simp only [hc, if_false, List.filter, hd]
        omega
    · have hge : records.length = 1000 := by
        have : ¬ records.length < 1000 := hlt
        omega
      rw [if_neg hlt, hge]
      omega

/-- C8 as stated fails: `csv_long_header` consists of one line, so no line
    follows the header and none is acceptable, yet `load_csv_data` counts one
    record and reports success: `fgets` stops after 511 characters and the
    rest of the header line is read as data. -/
theorem header_counted_counterexample :
    csv_long_header ≠ [] ∧ (text_lines csv_long_header).length = 1
      ∧ csv_expected_count csv_long_header = 0
      ∧ (load_csv_data (some csv_long_header) []).2.length = 1
      ∧ (load_csv_data (some csv_long_header) []).1 = 1 := by
  decide!

/-- C8, amended: for every delimited input with at least one line whose
    header line has at most 511 characters (its LF included) and whose data
    lines are each read whole by one `fgets` (at most 511 characters with the
    LF), hold no NUL and have CR only in the line terminator, with date tokens
    that fit their buffer and at most 1000 acceptable data lines, the record
    count returned by `load_csv_data` equals the number of lines after the
    first (header) line whose length after stripping the trailing CR/LF is at
    least 5 and on which at least the first 5 fields parse; the header line
    is never counted, and the load reports success iff that number is
    greater than 0. -/
theorem load_csv_count (file : List Char) (session : List HealthRecord) (hne : file ≠ [])
    (hheader : ∀ l ∈ (text_lines file).head?, l.length ≤ 511)
    (hplain : ∀ l ∈ (text_lines file).tail, line_plain l = true)
    (_hfits : ∀ l ∈ (text_lines file).tail, csv_date_fits l = true)
    (hcap : csv_expected_count file ≤ 1000) :
    (load_csv_data (some file) session).2.length = csv_expected_count file
      ∧ ((load_csv_data (some file) session).1 = 1 ↔ 0 < csv_expected_count file)
      ∧ ((load_csv_data (some file) session).1 = 0 ↔ csv_expected_count file = 0) := by
  cases file with
  | nil => exact absurd rfl hne
  | cons c cs =>
    have ht := text_lines_eq_fgets_take (c :: cs) 511 (by simp)
      (fun l ls h => hheader l (by rw [h]; rfl))
    have htail : (text_lines (c :: cs)).tail = text_lines (fgets_take 511 (c :: cs)).2 := by
      rw [ht]
      rfl
    rw [htail] at hplain
    have hshort : ∀ l ∈ text_lines (fgets_take 511 (c :: cs)).2, l.length ≤ 511 := by
      intro l hl
      have := hplain l hl
      simp only [line_plain, Bool.and_eq_true, decide_eq_true_eq] at this
      exact this.1.1
    have hread : read_lines (fgets_take 511 (c :: cs)).2
        = text_lines (fgets_take 511 (c :: cs)).2 :=
      read_lines_eq_text_lines _ hshort
    have hfilter : (text_lines (fgets_take 511 (c :: cs)).2).filter (fun buf =>
          decide (5 ≤ (chomp buf).length)
            && decide (5 ≤ (sscanf_csv (chomp buf) HealthRecord.zero).1))
        = (text_lines (fgets_take 511 (c :: cs)).2).filter csv_acceptable := by
      apply List.filter_congr
      intro l hl
      rw [chomp_eq_strip_eol l (hplain l hl)]
      rfl
    have hcount : csv_expected_count (c :: cs)
        = ((text_lines (fgets_take 511 (c :: cs)).2).filter csv_acceptable).length := by
      unfold csv_expected_count
      rw [htail]
    have h511 : MAX_LINE - 1 = 511 := rfl
    have hlen : (csv_loop (read_lines (fgets_take 511 (c :: cs)).2) []).length
        = csv_expected_count (c :: cs) := by
      rw [hread, csv_loop_length _ [] (by simp), hfilter, ← hcount]
      simp only [List.length_nil, Nat.zero_add]
      omega
    simp only [load_csv_data, fgets, h511]
    rw [hlen]
    refine ⟨rfl, ?_, ?_⟩
    · by_cases h0 : csv_expected_count (c :: cs) > 0 <;> simp [h0]
    · by_cases h0 : csv_expected_count (c :: cs) > 0
      · simp [h0]; omega
      · simp [h0]; omega

theorem load_csv_count_witness :
    (load_csv_data (some csv_example) []).2.length = csv_expected_count csv_example
      ∧ ((load_csv_data (some csv_example) []).1 = 1 ↔ 0 < csv_expected_count csv_example)
      ∧ ((load_csv_data (some csv_example) []).1 = 0 ↔ csv_expected_count csv_example = 0) :=
  load_csv_count csv_example [] (by decide!) (by decide!) (by decide!) (by decide!) (by decide!)

/-! ## Labeled-block parser -/

theorem sscanf_csv_unparsed_zero (line : List Char) :
    ((sscanf_csv line HealthRecord.zero).1 < 6 →
        (sscanf_csv line HealthRecord.zero).2.temperature = finite false 0 (-149))
      ∧ ((sscanf_csv line HealthRecord.zero).1 < 7 →
        (sscanf_csv line HealthRecord.zero).2.oxygen_level = 0)
      ∧ ((sscanf_csv line HealthRecord.zero).1 < 8 →
        (sscanf_csv line HealthRecord.zero).2.steps = 0) := by
  unfold sscanf_csv
  repeat' split
  all_goals simp [HealthRecord.zero]

theorem csv_loop_mem (bufs : List (List Char)) :
    ∀ (records : List HealthRecord) (r : HealthRecord), r ∈ csv_loop bufs records →
      r ∈ records ∨ ∃ line : List Char, 5 ≤ (sscanf_csv line HealthRecord.zero).1
        ∧ r = (sscanf_csv line HealthRecord.zero).2 := by
  induction bufs with
  | nil => intro records r h; exact Or.inl h
  | cons buf rest ih =>
    intro records r h
    unfold csv_loop at h
    split_ifs at h with hlt
    · rcases ih _ r h with h1 | h1
      · unfold csv_step at h1
        simp only [] at h1
        split_ifs at h1 with ha hb
        · exact Or.inl h1
        · rw [List.mem_append, List.mem_singleton] at h1
          rcases h1 with h2 | h2
          · exact Or.inl h2
          · exact Or.inr ⟨chomp buf, hb, h2⟩
        · exact Or.inl h1
      · exact Or.inr h1
    · exact Or.inl h

/-- Zero defaults of the delimited parser: in every record returned by
    `load_csv_data`, the numeric fields from the first one that failed to
    parse onwards are 0. -/
theorem load_csv_unparsed_zero (file : List Char) (session : List HealthRecord)
    (r : HealthRecord) (hr : r ∈ (load_csv_data (some file) session).2) :
    ∃ (line : List Char) (items : Int), sscanf_csv line HealthRecord.zero = (items, r)
      ∧ 5 ≤ items ∧ (items < 6 → r.temperature = finite false 0 (-149))
      ∧ (items < 7 → r.oxygen_level = 0) ∧ (items < 8 → r.steps = 0) := by
  unfold load_csv_data at hr
  simp only [] at hr
  split at hr
  · simp at hr
  · rcases csv_loop_mem _ _ r hr with h | ⟨line, h5, hrl⟩
    · simp at h
    · have hz := sscanf_csv_unparsed_zero line
      refine ⟨line, (sscanf_csv line HealthRecord.zero).1, ?_, h5, ?_, ?_, ?_⟩
      · rw [hrl]
      · rw [hrl]; exact hz.1
      · rw [hrl]; exact hz.2.1
      · rw [hrl]; exact hz.2.2

/-- C10 fails on `load_txt_data`: in `txt_missing_values` the second block has
    a `Heart Rate:` line without a number and a `Blood Pressure:` line without
    diastolic part; the committed record shows 72 and 78, the values of the
    first block, where the claim wants 0. -/
theorem txt_missing_values_carried_over :
    (load_txt_data (some txt_missing_values) [] HealthRecord.zero).2.map
        (fun r => (r.heart_rate, r.systolic_bp, r.diastolic_bp))
      = [(72, 118, 78), (72, 120, 78)] := by
  decide!

/-! ## Health score -/

theorem ite_sub_eq (c : Bool) (s a : Int) :
    (if c = true then s - a else s) = s - (if c = true then a else 0) := by
  split <;> omega

theorem score_eq_spec_aux (stats : HealthStats)
    (hT : stats.avg_temperature.isBinary32 = true) :
    calculate_health_score stats = score_spec stats := by
  unfold calculate_health_score
  lift_lets
  intro s0 s1 s2 s3 s4 s5 st s6 s7 s8
  have h1 : s1 = 100 - d_hr stats := by
    simp only [s1, s0, d_hr, lt_lit, gt_lit, Nat.cast_ofNat]
    split_ifs <;> rfl
  have h2 : s2 = s1 - d_bp stats := by
    simp only [s2, d_bp, lt_lit, gt_lit, Nat.cast_ofNat]
    split_ifs <;> omega
  have h3 : s3 = s2 - d_sugar stats := by
    simp only [s3, d_sugar, lt_lit, gt_lit, Nat.cast_ofNat]
    split_ifs <;> omega
  have h4 : s4 = s3 - d_temp stats := by
    simp only [s4, d_temp, lt_lit, gt_lit, gt_c99_5, gt_c100_4 _ hT, Nat.cast_ofNat]
    split_ifs <;> omega
  have h5 : s5 = s4 - d_oxy stats := by
    simp only [s5, d_oxy, lt_lit, Nat.cast_ofNat]
    split_ifs <;> omega
  have h6 : s6 = s5 + d_steps stats := by
    simp only [s6, st, d_steps]
    split_ifs <;> omega
  clear_value s1 s2 s3 s4 s5 s6
  simp only [s8, s7, score_spec, clamp]
  subst h1 h2 h3 h4 h5 h6
  split_ifs <;> omega

/-- C1: for every `HealthStats` with `record_count >= 1`, whatever the six
    averages and `total_steps` are, `calculate_health_score` returns an integer
    `s` with `0 <= s <= 100`. -/
theorem calculate_health_score_range (stats : HealthStats) (_hcount : 1 ≤ stats.record_count) :
    0 ≤ calculate_health_score stats ∧ calculate_health_score stats ≤ 100 := by
  unfold calculate_health_score
  lift_lets
  intro s0 s1 s2 s3 s4 s5 st s6 s7 s8
  clear_value s6
  simp only [s8, s7]
  split_ifs <;> omega

theorem calculate_health_score_range_witness :
    0 ≤ calculate_health_score stats_hr62 ∧ calculate_health_score stats_hr62 ≤ 100 :=
  calculate_health_score_range stats_hr62 (by decide)

/-- C3: for every `HealthStats` holding values of its C types with
    `record_count >= 1`, `calculate_health_score` equals
    `clamp(100 - d_hr - d_bp - d_sugar - d_temp - d_oxy + d_steps, 0, 100)`
    with the per-category first-match deductions of the specification, the
    decimal bounds 100.4 and 99.5 read as exact numbers. -/
theorem calculate_health_score_eq_spec (stats : HealthStats)
    (htyped : stats.wellTyped = true) (_hcount : 1 ≤ stats.record_count) :
    calculate_health_score stats = score_spec stats := by
  apply score_eq_spec_aux
  simp only [HealthStats.wellTyped, Bool.and_eq_true] at htyped
  exact htyped.1.1.1.2

theorem calculate_health_score_eq_spec_witness :
    calculate_health_score stats_hr62 = score_spec stats_hr62 :=
  calculate_health_score_eq_spec stats_hr62 (by decide!) (by decide)

/-- C2 as stated fails: the statistics `stats_hr62` have every vital in its
    NORMAL display band and 8000 average steps, yet the score is 95. -/
theorem normal_band_score_counterexample :
    1 ≤ stats_hr62.record_count ∧ display_all_normal stats_hr62 = true
      ∧ 5000 < Int.tdiv stats_hr62.total_steps stats_hr62.record_count
      ∧ Int.tdiv stats_hr62.total_steps stats_hr62.record_count ≤ 10000
      ∧ calculate_health_score stats_hr62 = 95 := by
  decide!

/-- C2, amended: for every `HealthStats` with `record_count >= 1` in which
    every vital lies in its NORMAL display band and moreover
    `65 <= avg_heart_rate <= 95`, `avg_systolic >= 90`, `avg_diastolic >= 60`,
    and whose average steps are in `(5000, 10000]`, the score is exactly 100. -/
theorem normal_band_score_amended (stats : HealthStats) (_hcount : 1 ≤ stats.record_count)
    (hnormal : display_all_normal stats = true)
    (hhr : ge stats.avg_heart_rate (lit 65) = true ∧ le stats.avg_heart_rate (lit 95) = true)
    (hbp : ge stats.avg_systolic (lit 90) = true ∧ ge stats.avg_diastolic (lit 60) = true)
    (hsteps : 5000 < Int.tdiv stats.total_steps stats.record_count
      ∧ Int.tdiv stats.total_steps stats.record_count ≤ 10000) :
    calculate_health_score stats = 100 := by
  simp only [display_all_normal, display_hr_normal, display_bp_normal, display_sugar_normal,
    display_temp_normal, display_oxygen_normal, Bool.and_eq_true] at hnormal
  obtain ⟨⟨⟨⟨⟨-, -⟩, hsys, hdia⟩, hsg1, hsg2⟩, htp1, htp2⟩, hox⟩ := hnormal
  have a1 : lt stats.avg_heart_rate (lit 60) = false :=
    lt_false_of_ge _ _ _ _ _ _ _ hhr.1 (by norm_num [val])
  have a2 : gt stats.avg_heart_rate (lit 100) = false :=
    gt_false_of_le _ _ _ _ _ _ _ hhr.2 (by norm_num [val])
  have a3 : lt stats.avg_heart_rate (lit 65) = false :=
    lt_false_of_ge _ _ _ _ _ _ _ hhr.1 (by norm_num [val])
  have a4 : gt stats.avg_heart_rate (lit 95) = false :=
    gt_false_of_le _ _ _ _ _ _ _ hhr.2 (by norm_num [val])
  have b1 : gt stats.avg_systolic (lit 140) = false :=
    gt_false_of_lt _ _ _ _ _ _ _ hsys (by norm_num [val])
  have b2 : gt stats.avg_diastolic (lit 90) = false :=
    gt_false_of_lt _ _ _ _ _ _ _ hdia (by norm_num [val])
  have b3 : gt stats.avg_systolic (lit 130) = false :=
    gt_false_of_lt _ _ _ _ _ _ _ hsys (by norm_num [val])
  have b4 : gt stats.avg_diastolic (lit 80) = false :=
    gt_false_of_lt _ _ _ _ _ _ _ hdia (by norm_num [val])
  have b5 : lt stats.avg_systolic (lit 90) = false :=
    lt_false_of_ge _ _ _ _ _ _ _ hbp.1 (by norm_num [val])
  have b6 : lt stats.avg_diastolic (lit 60) = false :=
    lt_false_of_ge _ _ _ _ _ _ _ hbp.2 (by norm_num [val])
  have c1 : gt stats.avg_blood_sugar (lit 200) = false :=
    gt_false_of_le _ _ _ _ _ _ _ hsg2 (by norm_num [val])
  have c2 : lt stats.avg_blood_sugar (lit 70) = false :=
    lt_false_of_ge _ _ _ _ _ _ _ hsg1 (by norm_num [val])
  have c3 : gt stats.avg_blood_sugar (lit 125) = false :=
    gt_false_of_le _ _ _ _ _ _ _ hsg2 (by norm_num [val])
  have t1 : gt stats.avg_temperature c100_4 = false :=
    gt_false_of_le _ _ _ _ _ _ _ htp2 (by norm_num [val])
  have t2 : lt stats.avg_temperature (lit 95) = false :=
    lt_false_of_ge _ _ _ _ _ _ _ htp1 (by norm_num [val])
  have t3 : gt stats.avg_temperature c99_5 = false :=
    gt_false_of_le _ _ _ _ _ _ _ htp2 (by norm_num [val])
  have t4 : lt stats.avg_temperature (lit 97) = false :=
    lt_false_of_ge _ _ _ _ _ _ _ htp1 (by norm_num [val])
  have o1 : lt stats.avg_oxygen (lit 90) = false :=
    lt_false_of_ge _ _ _ _ _ _ _ hox (by norm_num [val])
  have o2 : lt stats.avg_oxygen (lit 95) = false :=
    lt_false_of_ge _ _ _ _ _ _ _ hox (by norm_num [val])
  have s1 : ¬ Int.tdiv stats.total_steps stats.record_count < 5000 := by omega
  have s2 : ¬ Int.tdiv stats.total_steps stats.record_count > 10000 := by omega
  simp [calculate_health_score, a1, a2, a3, a4, b1, b2, b3, b4, b5, b6, c1, c2, c3, t1, t2, t3,
    t4, o1, o2, s1, s2]

theorem normal_band_score_amended_witness : calculate_health_score stats_fit = 100 :=
  normal_band_score_amended stats_fit (by decide) (by decide!) (by decide!) (by decide!)
    (by decide)

/-! ## Alert capacity -/

theorem heart_rate_analysis_length (stats : HealthStats) :
    (heart_rate_analysis stats).length ≤ 1 := by
  unfold heart_rate_analysis
  split_ifs <;> simp

theorem blood_pressure_analysis_length (stats : HealthStats) :
    (blood_pressure_analysis stats).length ≤ 1 := by
  unfold blood_pressure_analysis
  split_ifs <;> simp

theorem blood_sugar_analysis_length (stats : HealthStats) :
    (blood_sugar_analysis stats).length ≤ 1 := by
  unfold blood_sugar_analysis
  split_ifs <;> simp

theorem temperature_analysis_length (stats : HealthStats) :
    (temperature_analysis stats).length ≤ 1 := by
  unfold temperature_analysis
  split_ifs <;> simp

theorem oxygen_analysis_length (stats : HealthStats) :
    (oxygen_analysis stats).length ≤ 1 := by
  unfold oxygen_analysis
  split_ifs <;> simp

theorem activity_analysis_length (count : Int) (stats : HealthStats) :
    (activity_analysis count stats).length ≤ 1 := by
  unfold activity_analysis
  simp only []
  split_ifs <;> simp

theorem hr_trend_analysis_length (records : List HealthRecord) :
    (hr_trend_analysis records).length ≤ 1 := by
  unfold hr_trend_analysis
  split_ifs <;> simp

theorem bp_trend_analysis_length (records : List HealthRecord) :
    (bp_trend_analysis records).length ≤ 1 := by
  unfold bp_trend_analysis
  split_ifs <;> simp

theorem analyze_health_length (records : List HealthRecord) (stats : HealthStats) :
    (analyze_health records stats).length ≤ 8 := by
  have h1 := heart_rate_analysis_length stats
  have h2 := blood_pressure_analysis_length stats
  have h3 := blood_sugar_analysis_length stats
  have h4 := temperature_analysis_length stats
  have h5 := oxygen_analysis_length stats
  have h6 := activity_analysis_length (records.length : Int) stats
  have h7 := hr_trend_analysis_length records
  have h8 := bp_trend_analysis_length records
  simp only [analyze_health, List.length_append]
  omega

/-- C15: for every stats and every record sequence with `count >= 1`,
    `analyze_health` produces at most 9 alerts (in fact at most 8, one for
    each rule), so the capacity 50 of the alert array is never exceeded and
    every index written, being below the final count, is below 50. -/
theorem analyze_health_capacity (records : List HealthRecord) (stats : HealthStats)
    (_hcount : 1 ≤ records.length) :
    (analyze_health records stats).length ≤ 9
      ∧ (analyze_health records stats).length ≤ 50
      ∧ ∀ i : Nat, i < (analyze_health records stats).length → i < 50 := by
  have h := analyze_health_length records stats
  refine ⟨by omega, by omega, ?_⟩
  intro i hi
  omega

theorem analyze_health_capacity_witness :
    (analyze_health csv_example_records csv_example_stats).length ≤ 9
      ∧ (analyze_health csv_example_records csv_example_stats).length ≤ 50
      ∧ ∀ i : Nat, i < (analyze_health csv_example_records csv_example_stats).length → i < 50 :=
  analyze_health_capacity csv_example_records csv_example_stats (by decide)

/-! ## Score and alerts -/

theorem heart_rate_analysis_nil (stats : HealthStats) (h : heart_rate_analysis stats = []) :
    gt stats.avg_heart_rate (lit 100) = false ∧ lt stats.avg_heart_rate (lit 60) = false := by
  unfold heart_rate_analysis at h
  split_ifs at h with h1 h2
  exact ⟨by simpa using h1, by simpa using h2⟩

theorem blood_pressure_analysis_nil (stats : HealthStats)
    (h : blood_pressure_analysis stats = []) :
    (gt stats.avg_systolic (lit 140) || gt stats.avg_diastolic (lit 90)) = false
      ∧ (gt stats.avg_systolic (lit 130) || gt stats.avg_diastolic (lit 80)) = false
      ∧ (lt stats.avg_systolic (lit 90) || lt stats.avg_diastolic (lit 60)) = false := by
  unfold blood_pressure_analysis at h
  split_ifs at h with h1 h2 h3
  exact ⟨by simpa using h1, by simpa using h2, by simpa using h3⟩

theorem blood_sugar_analysis_nil (stats : HealthStats) (h : blood_sugar_analysis stats = []) :
    gt stats.avg_blood_sugar (lit 200) = false ∧ gt stats.avg_blood_sugar (lit 125) = false
      ∧ lt stats.avg_blood_sugar (lit 70) = false := by
  unfold blood_sugar_analysis at h
  split_ifs at h with h1 h2 h3
  exact ⟨by simpa using h1, by simpa using h2, by simpa using h3⟩

theorem temperature_analysis_nil (stats : HealthStats) (h : temperature_analysis stats = []) :
    gt stats.avg_temperature c100_4 = false ∧ lt stats.avg_temperature (lit 95) = false := by
  unfold temperature_analysis at h
  split_ifs at h with h1 h2
  exact ⟨by simpa using h1, by simpa using h2⟩

theorem oxygen_analysis_nil (stats : HealthStats) (h : oxygen_analysis stats = []) :
    lt stats.avg_oxygen (lit 90) = false ∧ lt stats.avg_oxygen (lit 95) = false := by
  unfold oxygen_analysis at h
  split_ifs at h with h1 h2
  exact ⟨by simpa using h1, by simpa using h2⟩

theorem activity_analysis_nil (count : Int) (stats : HealthStats)
    (h : activity_analysis count stats = []) : ¬ Int.tdiv stats.total_steps count < 5000 := by
  unfold activity_analysis at h
  simp only [] at h
  split_ifs at h with h1
  exact h1

/-- C17: for every non-empty record sequence and stats whose `record_count` is
    its length, if `analyze_health` produces no alert at all then
    `calculate_health_score stats >= 90`, which `display_health_score` shows
    as Excellent. -/
theorem no_alert_score (records : List HealthRecord) (stats : HealthStats)
    (_hne : records ≠ []) (hcount : stats.record_count = (records.length : Int))
    (hnone : analyze_health records stats = []) :
    90 ≤ calculate_health_score stats := by
  simp only [analyze_health, List.append_eq_nil] at hnone
  obtain ⟨⟨⟨⟨⟨⟨⟨hhr, hbp⟩, hsg⟩, htp⟩, hox⟩, hact⟩, -⟩, -⟩ := hnone
  obtain ⟨a1, a2⟩ := heart_rate_analysis_nil stats hhr
  obtain ⟨b1, b2, b3⟩ := blood_pressure_analysis_nil stats hbp
  obtain ⟨c1, c2, c3⟩ := blood_sugar_analysis_nil stats hsg
  obtain ⟨t1, t2⟩ := temperature_analysis_nil stats htp
  obtain ⟨o1, o2⟩ := oxygen_analysis_nil stats hox
  have hst := activity_analysis_nil _ stats hact
  rw [← hcount] at hst
  unfold calculate_health_score
  lift_lets
  intro s0 s1 s2 s3 s4 s5 st s6 s7 s8
  have h1 : 95 ≤ s1 ∧ s1 ≤ 100 := by
    simp only [s1, s0, a1, a2, Bool.or_self, Bool.false_eq_true, if_false]
    split_ifs <;> omega
  have h2 : s2 = s1 := by
    simp only [s2, b1, b2, b3, Bool.false_eq_true, if_false]
  have h3 : s3 = s2 := by
    simp only [s3, c1, c2, c3, Bool.or_self, Bool.false_eq_true, if_false]
  have h4 : s3 - 5 ≤ s4 ∧ s4 ≤ s3 := by
    simp only [s4, t1, t2, Bool.or_self, Bool.false_eq_true, if_false]
    split_ifs <;> omega
  have h5 : s5 = s4 := by
    simp only [s5, o1, o2, Bool.false_eq_true, if_false]
  have h6 : s5 ≤ s6 ∧ s6 ≤ s5 + 5 := by
    simp only [s6, st, hst, if_false]
    split_ifs <;> omega
  clear_value s1 s2 s3 s4 s5 s6
  simp only [s8, s7]
  split_ifs <;> omega


theorem no_alert_score_witness : 90 ≤ calculate_health_score stats_fit :=
  no_alert_score fit_records stats_fit (by decide) (by decide) (by decide!)

/-! ## Session: loads and manual entries -/

/-- C11 as stated fails: a session holding one record (n = 1) loads
    `csv_example`, which parses to two records (m = 2); afterwards it holds
    2 records, not 3, and the record held before is gone. -/
theorem load_accumulate_counterexample :
    (load_csv_data (some csv_example) []).2.length = 2
      ∧ (load_csv_data (some csv_example) [HealthRecord.zero]).1 = 1
      ∧ (load_csv_data (some csv_example) [HealthRecord.zero]).2.length = 2
      ∧ HealthRecord.zero ∉ (load_csv_data (some csv_example) [HealthRecord.zero]).2 := by
  decide!

/-- C11, amended: a load replaces the session.  For every session state and
    every input file that could be opened, after `load_csv_data` or
    `load_txt_data` the session holds exactly the records parsed from the
    file, whatever it held before; a file that cannot be opened leaves the
    session as it was; and `add_manual_record` is the operation that
    accumulates: on a session of fewer than 1000 records it appends one
    record and keeps the records held before unchanged. -/
theorem load_replaces_session (content : List Char) (session : List HealthRecord)
    (garbage entered : HealthRecord) :
    load_csv_data (some content) session = load_csv_data (some content) []
      ∧ load_txt_data (some content) session garbage = load_txt_data (some content) [] garbage
      ∧ load_csv_data none session = (0, session)
      ∧ load_txt_data none session garbage = (0, session)
      ∧ (session.length < 1000 → add_manual_record session entered = session ++ [entered]) := by
  refine ⟨rfl, rfl, rfl, rfl, ?_⟩
  intro h
  unfold add_manual_record
  rw [if_neg]
  show ¬ session.length ≥ 1000
  omega

theorem generate_advice_nonempty_suffix (alerts : List Alert) (h : alerts ≠ []) :
    advice_disclaimer <:+ generate_advice alerts := by
  have hlen : ¬ alerts.length = 0 := fun h0 => h (List.length_eq_zero.mp h0)
  unfold generate_advice
  simp only [hlen, if_false]
  exact List.suffix_append _ _

/-- C14 as stated fails on the empty alert sequence: `generate_advice` prints
    the banner and the generic wellness block and returns; its output does not
    end with the medical disclaimer, which is printed only for a non-empty
    sequence. -/
theorem generate_advice_empty_no_disclaimer :
    generate_advice [] = advice_banner ++ advice_wellness_block
      ∧ advice_disclaimer.isSuffixOf (generate_advice []) = false
      ∧ strstr (generate_advice []) "DISCLAIMER".toList = false := by
  decide!

/-- C14, amended: for every non-empty alert sequence the text produced by
    `generate_advice` ends with the fixed medical disclaimer block, and these
    are the sequences menu option 5 passes to it; for the empty sequence
    `generate_advice` prints the banner and the generic wellness block only,
    and menu option 5 prints its warning instead of calling it. -/
theorem generate_advice_disclaimer (alerts : List Alert) :
    (alerts ≠ [] →
        advice_disclaimer <:+ generate_advice alerts
          ∧ main_case_5 alerts = generate_advice alerts)
      ∧ (alerts = [] →
        generate_advice alerts = advice_banner ++ advice_wellness_block
          ∧ main_case_5 alerts = advice_warning) := by
  constructor
  · intro h
    have hlen : ¬ alerts.length = 0 := fun h0 => h (List.length_eq_zero.mp h0)
    refine ⟨generate_advice_nonempty_suffix alerts h, ?_⟩
    unfold main_case_5
    rw [if_neg hlen]
  · intro h
    subst h
    exact ⟨rfl, rfl⟩

theorem generate_advice_disclaimer_witness :
    advice_disclaimer <:+ generate_advice [hr_trend_alert]
      ∧ main_case_5 [hr_trend_alert] = generate_advice [hr_trend_alert]
      ∧ generate_advice [] = advice_banner ++ advice_wellness_block :=
  ⟨((generate_advice_disclaimer [hr_trend_alert]).1 (List.cons_ne_nil _ _)).1,
    ((generate_advice_disclaimer [hr_trend_alert]).1 (List.cons_ne_nil _ _)).2,
    ((generate_advice_disclaimer []).2 rfl).1⟩

/-! ## Keywords in alert messages -/

theorem strstr_cons (x : Char) (t w : List Char) :
    strstr (x :: t) w = (w.isPrefixOf (x :: t) || strstr t w) := by
  simp [strstr, List.tails]

theorem strstr_nil_right (s : List Char) : strstr s [] = true := by
  cases s <;> simp [strstr, List.tails]

theorem isPrefixOf_append_false (t w rest : List Char)
    (h1 : t.isPrefixOf w = false) (h2 : w.isPrefixOf t = false) :
    w.isPrefixOf (t ++ rest) = false := by
  by_contra hcon
  have hw : w <+: t ++ rest := by
    rw [← List.isPrefixOf_iff_prefix]
    simpa using hcon
  have ht : t <+: t ++ rest := List.prefix_append t rest
  rcases Nat.le_total w.length t.length with hl | hl
  · have := List.prefix_of_prefix_length_le hw ht hl
    rw [← List.isPrefixOf_iff_prefix, h2] at this
    exact absurd this (by simp)
  · have := List.prefix_of_prefix_length_le ht hw hl
    rw [← List.isPrefixOf_iff_prefix, h1] at this
    exact absurd this (by simp)

theorem strstr_append_no_start (a w rest : List Char) (ha : no_start a w = true) :
    strstr (a ++ rest) w = strstr rest w := by
  induction a with
  | nil => rfl
  | cons x t ih =>
    simp only [no_start, List.tails, List.all_cons, Bool.and_eq_true] at ha
    obtain ⟨hx, ht⟩ := ha
    have hx' : ((x :: t).isPrefixOf w || w.isPrefixOf (x :: t)) = false := by
      simpa using hx
    rw [Bool.or_eq_false_iff] at hx'
    rw [List.cons_append, strstr_cons, ← List.cons_append,
      isPrefixOf_append_false (x :: t) w rest hx'.1 hx'.2, Bool.false_or]
    exact ih ht

theorem strstr_append_numeric (b w rest : List Char)
    (hb : ∀ ch ∈ b, numeric_char ch = true) (hw : w.head?.map numeric_char = some false) :
    strstr (b ++ rest) w = strstr rest w := by
  induction b with
  | nil => rfl
  | cons x t ih =>
    cases w with
    | nil => simp at hw
    | cons w0 w' =>
      have hw0 : numeric_char w0 = false := by simpa using hw
      have hx : numeric_char x = true := hb x (by simp)
      have hne : (w0 == x) = false := by
        rw [beq_eq_false_iff_ne]
        intro h
        rw [h, hx] at hw0
        exact absurd hw0 (by simp)
      rw [List.cons_append, strstr_cons, List.isPrefixOf, hne, Bool.false_and, Bool.false_or]
      exact ih (fun ch hch => hb ch (List.mem_cons_of_mem _ hch))

/-- A keyword does not start in the text before a number nor in the number:
    it occurs in the message only if it occurs in the text after the number. -/
theorem strstr_message (a b c w : List Char) (ha : no_start a w = true)
    (hb : ∀ ch ∈ b, numeric_char ch = true) (hw : w.head?.map numeric_char = some false) :
    strstr (a ++ b ++ c) w = strstr c w := by
  rw [List.append_assoc, strstr_append_no_start _ _ _ ha, strstr_append_numeric _ _ _ hb hw]

theorem strstr_append_left (a rest w : List Char) (h : strstr a w = true) :
    strstr (a ++ rest) w = true := by
  induction a with
  | nil =>
    have hw : w = [] := by
      cases w with
      | nil => rfl
      | cons c cs => simp [strstr, List.tails] at h
    rw [hw]
    exact strstr_nil_right _
  | cons x t ih =>
    rw [strstr_cons, Bool.or_eq_true] at h
    rw [List.cons_append, strstr_cons, Bool.or_eq_true]
    rcases h with h | h
    · left
      rw [List.isPrefixOf_iff_prefix] at h ⊢
      exact h.trans (List.prefix_append _ _)
    · right
      exact ih h

theorem digitChar_numeric (n : Nat) (h : n < 10) : numeric_char (Nat.digitChar n) = true := by
  interval_cases n <;> decide

theorem toDigitsCore_numeric (fuel : Nat) :
    ∀ (n : Nat) (ds : List Char), (∀ ch ∈ ds, numeric_char ch = true) →
      ∀ ch ∈ Nat.toDigitsCore 10 fuel n ds, numeric_char ch = true := by
  induction fuel with
  | zero => intro n ds hds ch hch; exact hds ch hch
  | succ fuel ih =>
    intro n ds hds ch hch
    have hd : ∀ c ∈ Nat.digitChar (n % 10) :: ds, numeric_char c = true := by
      intro c hc
      rcases List.mem_cons.mp hc with h | h
      · rw [h]; exact digitChar_numeric _ (Nat.mod_lt _ (by norm_num))
      · exact hds c h
    simp only [Nat.toDigitsCore] at hch
    split_ifs at hch
    · exact hd ch hch
    · exact ih _ _ hd ch hch

theorem toDigits_numeric (n : Nat) : ∀ ch ∈ Nat.toDigits 10 n, numeric_char ch = true :=
  toDigitsCore_numeric _ n [] (by simp)

theorem fmt_d_numeric (x : Int) : ∀ ch ∈ fmt_d x, numeric_char ch = true := by
  intro ch hch
  unfold fmt_d at hch
  rcases List.mem_append.mp hch with h | h
  · split_ifs at h
    · rw [List.mem_singleton.mp h]; decide
    · simp at h
  · exact toDigits_numeric _ ch h

theorem fmt_f_numeric (prec : Nat) (x : CFloat) :
    ∀ ch ∈ fmt_f prec x, numeric_char ch = true := by
  intro ch hch
  cases x with
  | nan =>
    simp only [fmt_f, List.mem_cons, List.mem_singleton] at hch
    rcases hch with h | h | h | h
    · rw [h]; decide
    · rw [h]; decide
    · rw [h]; decide
    · simp at h
  | inf neg =>
    simp only [fmt_f, List.mem_append, List.mem_cons, List.mem_singleton] at hch
    rcases hch with h | h | h | h | h
    · split_ifs at h
      · rw [List.mem_singleton.mp h]; decide
      · simp at h
    · rw [h]; decide
    · rw [h]; decide
    · rw [h]; decide
    · simp at h
  | finite neg m e =>
    simp only [fmt_f, List.mem_append] at hch
    rcases hch with (h | h) | h
    · split_ifs at h
      · rw [List.mem_singleton.mp h]; decide
      · simp at h
    · exact toDigits_numeric _ ch h
    · split_ifs at h
      · simp at h
      · rcases List.mem_cons.mp h with h1 | h1
        · rw [h1]; decide
        · rcases List.mem_append.mp h1 with h2 | h2
          · rw [(List.mem_replicate.mp h2).2]; decide
          · exact toDigits_numeric _ ch h2

theorem message_no_keyword (a b c : List Char) (ws : List (List Char))
    (h : ws.all (fun w => keyword_excluded a c w) = true)
    (hb : ∀ ch ∈ b, numeric_char ch = true) :
    ∀ w ∈ ws, strstr (a ++ b ++ c) w = false := by
  intro w hw
  have := List.all_eq_true.mp h w hw
  simp only [keyword_excluded, Bool.and_eq_true, beq_iff_eq, Bool.not_eq_true'] at this
  obtain ⟨⟨h1, h2⟩, h3⟩ := this
  rw [strstr_message a b c w h1 hb h2, h3]

theorem message_no_keyword2 (a b1 m b2 c : List Char) (ws : List (List Char))
    (h : ws.all (fun w => keyword_excluded a c w && no_start m w) = true)
    (hb1 : ∀ ch ∈ b1, numeric_char ch = true) (hb2 : ∀ ch ∈ b2, numeric_char ch = true) :
    ∀ w ∈ ws, strstr (a ++ b1 ++ m ++ b2 ++ c) w = false := by
  intro w hw
  have := List.all_eq_true.mp h w hw
  simp only [keyword_excluded, Bool.and_eq_true, beq_iff_eq, Bool.not_eq_true'] at this
  obtain ⟨⟨⟨h1, h2⟩, h3⟩, h4⟩ := this
  have e : a ++ b1 ++ m ++ b2 ++ c = a ++ b1 ++ (m ++ b2 ++ c) := by
    simp only [List.append_assoc]
  rw [e, strstr_message a b1 _ w h1 hb1 h2, strstr_message m b2 c w h4 hb2 h2, h3]

theorem advice_flags_fold (alerts : List Alert) :
    ∀ f0 : AdviceFlags, alerts.foldl advice_flags_step f0
      = { has_heart_issue :=
            f0.has_heart_issue || alerts.any (fun a => strstr a.message "heart rate".toList),
          has_bp_issue :=
            f0.has_bp_issue || alerts.any (fun a =>
              strstr a.message "pressure".toList || strstr a.message "BP".toList),
          has_sugar_issue :=
            f0.has_sugar_issue || alerts.any (fun a => strstr a.message "sugar".toList),
          has_oxygen_issue :=
            f0.has_oxygen_issue || alerts.any (fun a => strstr a.message "oxygen".toList),
          has_activity_issue :=
            f0.has_activity_issue || alerts.any (fun a => strstr a.message "steps".toList) } := by
  induction alerts with
  | nil => intro f0; simp
  | cons a rest ih =>
    intro f0
    rw [List.foldl_cons, ih]
    simp only [advice_flags_step, List.any_cons]
    generalize strstr a.message "heart rate".toList = b1
    generalize strstr a.message "pressure".toList = b2
    generalize strstr a.message "BP".toList = b3
    generalize strstr a.message "sugar".toList = b4
    generalize strstr a.message "oxygen".toList = b5
    generalize strstr a.message "steps".toList = b6
    cases b1 <;> cases b2 <;> cases b3 <;> cases b4 <;> cases b5 <;> cases b6 <;> simp

theorem advice_flags_heart (alerts : List Alert) :
    (advice_flags alerts).has_heart_issue
      = alerts.any (fun a => strstr a.message "heart rate".toList) := by
  unfold advice_flags
  rw [advice_flags_fold]
  simp

theorem advice_flags_no_keyword (a : Alert)
    (h : ∀ w ∈ advice_keywords, strstr a.message w = false) : advice_flags [a] = no_flags := by
  have h1 := h "heart rate".toList (by simp [advice_keywords])
  have h2 := h "pressure".toList (by simp [advice_keywords])
  have h3 := h "BP".toList (by simp [advice_keywords])
  have h4 := h "sugar".toList (by simp [advice_keywords])
  have h5 := h "oxygen".toList (by simp [advice_keywords])
  have h6 := h "steps".toList (by simp [advice_keywords])
  unfold advice_flags
  rw [advice_flags_fold]
  simp only [List.any_cons, List.any_nil, h1, h2, h3, h4, h5, h6, Bool.or_self, no_flags]

theorem generate_advice_no_flags (alerts : List Alert) (hne : alerts ≠ [])
    (h : advice_flags alerts = no_flags) : generate_advice alerts = advice_without_blocks := by
  have hlen : ¬ alerts.length = 0 := fun h0 => hne (List.length_eq_zero.mp h0)
  unfold generate_advice
  simp only [hlen, if_false, h, no_flags, Bool.false_eq_true, advice_without_blocks]

theorem temperature_no_keyword (stats : HealthStats) :
    ∀ a ∈ temperature_analysis stats, ∀ w ∈ advice_keywords, strstr a.message w = false := by
  intro a ha w hw
  unfold temperature_analysis at ha
  split_ifs at ha
  · rw [List.mem_singleton] at ha
    subst ha
    exact message_no_keyword _ _ _ advice_keywords (by decide!) (fmt_f_numeric _ _) w hw
  · rw [List.mem_singleton] at ha
    subst ha
    exact message_no_keyword _ _ _ advice_keywords (by decide!) (fmt_f_numeric _ _) w hw
  · simp at ha

theorem heart_rate_has_keyword (stats : HealthStats) :
    ∀ a ∈ heart_rate_analysis stats, strstr a.message "heart rate".toList = true := by
  intro a ha
  unfold heart_rate_analysis at ha
  by_cases h1 : gt stats.avg_heart_rate (lit 100) = true
  · rw [if_pos h1, List.mem_singleton] at ha
    subst ha
    exact strstr_append_left _ _ _ (strstr_append_left _ _ _ (by decide!))
  · rw [if_neg h1] at ha
    by_cases h2 : lt stats.avg_heart_rate (lit 60) = true
    · rw [if_pos h2, List.mem_singleton] at ha
      subst ha
      exact strstr_append_left _ _ _ (strstr_append_left _ _ _ (by decide!))
    · rw [if_neg h2] at ha
      simp at ha

theorem blood_pressure_no_heart (stats : HealthStats) :
    ∀ a ∈ blood_pressure_analysis stats, strstr a.message "heart rate".toList = false := by
  intro a ha
  unfold blood_pressure_analysis at ha
  split_ifs at ha
  · rw [List.mem_singleton] at ha
    subst ha
    exact message_no_keyword2 _ _ _ _ _ ["heart rate".toList] (by decide!)
      (fmt_f_numeric _ _) (fmt_f_numeric _ _) _ (List.mem_singleton_self _)
  · rw [List.mem_singleton] at ha
    subst ha
    exact message_no_keyword2 _ _ _ _ _ ["heart rate".toList] (by decide!)
      (fmt_f_numeric _ _) (fmt_f_numeric _ _) _ (List.mem_singleton_self _)
  · rw [List.mem_singleton] at ha
    subst ha
    exact message_no_keyword2 _ _ _ _ _ ["heart rate".toList] (by decide!)
      (fmt_f_numeric _ _) (fmt_f_numeric _ _) _ (List.mem_singleton_self _)
  · simp at ha

theorem blood_sugar_no_heart (stats : HealthStats) :
    ∀ a ∈ blood_sugar_analysis stats, strstr a.message "heart rate".toList = false := by
  intro a ha
  unfold blood_sugar_analysis at ha
  split_ifs at ha
  · rw [List.mem_singleton] at ha
    subst ha
    exact message_no_keyword _ _ _ ["heart rate".toList] (by decide!) (fmt_f_numeric _ _) _
      (List.mem_singleton_self _)
  · rw [List.mem_singleton] at ha
    subst ha
    exact message_no_keyword _ _ _ ["heart rate".toList] (by decide!) (fmt_f_numeric _ _) _
      (List.mem_singleton_self _)
  · rw [List.mem_singleton] at ha
    subst ha
    exact message_no_keyword _ _ _ ["heart rate".toList] (by decide!) (fmt_f_numeric _ _) _
      (List.mem_singleton_self _)
  · simp at ha

theorem oxygen_no_heart (stats : HealthStats) :
    ∀ a ∈ oxygen_analysis stats, strstr a.message "heart rate".toList = false := by
  intro a ha
  unfold oxygen_analysis at ha
  split_ifs at ha
  · rw [List.mem_singleton] at ha
    subst ha
    exact message_no_keyword _ _ _ ["heart rate".toList] (by decide!) (fmt_f_numeric _ _) _
      (List.mem_singleton_self _)
  · rw [List.mem_singleton] at ha
    subst ha
    exact message_no_keyword _ _ _ ["heart rate".toList] (by decide!) (fmt_f_numeric _ _) _
      (List.mem_singleton_self _)
  · simp at ha

theorem activity_no_heart (count : Int) (stats : HealthStats) :
    ∀ a ∈ activity_analysis count stats, strstr a.message "heart rate".toList = false := by
  intro a ha
  unfold activity_analysis at ha
  simp only [] at ha
  split_ifs at ha
  · rw [List.mem_singleton] at ha
    subst ha
    exact message_no_keyword _ _ _ ["heart rate".toList] (by decide!) (fmt_d_numeric _) _
      (List.mem_singleton_self _)
  · simp at ha

theorem hr_trend_analysis_alert (records : List HealthRecord) :
    ∀ a ∈ hr_trend_analysis records, a = hr_trend_alert := by
  intro a ha
  unfold hr_trend_analysis at ha
  split_ifs at ha
  · exact List.mem_singleton.mp ha
  · simp at ha
  · simp at ha

theorem hr_trend_no_heart (records : List HealthRecord) :
    ∀ a ∈ hr_trend_analysis records, strstr a.message "heart rate".toList = false := by
  intro a ha
  rw [hr_trend_analysis_alert records a ha]
  decide!

theorem bp_trend_no_heart (records : List HealthRecord) :
    ∀ a ∈ bp_trend_analysis records, strstr a.message "heart rate".toList = false := by
  intro a ha
  unfold bp_trend_analysis at ha
  split_ifs at ha
  · rw [List.mem_singleton.mp ha]
    decide!
  · simp at ha
  · simp at ha

theorem any_false_of_forall (l : List Alert) (w : List Char)
    (h : ∀ a ∈ l, strstr a.message w = false) :
    l.any (fun a => strstr a.message w) = false := by
  rw [List.any_eq_false]
  intro a ha
  rw [h a ha]
  simp

/-- C18: keyword matching in `generate_advice` is case-sensitive.  On the
    alerts of `analyze_health` the heart flag is set exactly when the
    heart-rate average rule produced its alert; an alert list that consists
    only of the heart-rate trend alert, or only of a temperature alert, sets
    none of the five flags, and the advice printed for it has no category
    block although the list is not empty. -/
theorem advice_keyword_matching (records : List HealthRecord) (stats : HealthStats) :
    ((advice_flags (analyze_health records stats)).has_heart_issue = true
        ↔ heart_rate_analysis stats ≠ [])
      ∧ (∀ a ∈ hr_trend_analysis records, a = hr_trend_alert)
      ∧ advice_flags [hr_trend_alert] = no_flags
      ∧ generate_advice [hr_trend_alert] = advice_without_blocks
      ∧ (∀ a ∈ temperature_analysis stats,
          advice_flags [a] = no_flags ∧ generate_advice [a] = advice_without_blocks) := by
  have htrend : advice_flags [hr_trend_alert] = no_flags := by decide!
  refine ⟨?_, hr_trend_analysis_alert records, htrend,
    generate_advice_no_flags _ (by simp) htrend, ?_⟩
  · rw [advice_flags_heart]
    simp only [analyze_health, List.any_append]
    rw [any_false_of_forall (blood_pressure_analysis stats) _ (blood_pressure_no_heart stats),
      any_false_of_forall (blood_sugar_analysis stats) _ (blood_sugar_no_heart stats),
      any_false_of_forall (temperature_analysis stats) _
        (fun a ha => temperature_no_keyword stats a ha _ (by simp [advice_keywords])),
      any_false_of_forall (oxygen_analysis stats) _ (oxygen_no_heart stats),
      any_false_of_forall (activity_analysis _ stats) _ (activity_no_heart _ stats),
      any_false_of_forall (hr_trend_analysis records) _ (hr_trend_no_heart records),
      any_false_of_forall (bp_trend_analysis records) _ (bp_trend_no_heart records)]
    simp only [Bool.or_false]
    constructor
    · intro h hnil
      rw [hnil] at h
      simp at h
    · intro hne
      cases hl : heart_rate_analysis stats with
      | nil => exact absurd hl hne
      | cons a rest =>
        rw [List.any_cons, heart_rate_has_keyword stats a (by rw [hl]; simp)]
        rfl
  · intro a ha
    have hflags := advice_flags_no_keyword a (temperature_no_keyword stats a ha)
    exact ⟨hflags, generate_advice_no_flags _ (by simp) hflags⟩

namespace CFloat

/-! ## Rounding to binary32 -/

theorem ilog2Aux_spec (fuel : Nat) :
    ∀ n : Nat, n ≤ fuel → 0 < n →
      2 ^ ilog2Aux fuel n ≤ n ∧ n < 2 ^ (ilog2Aux fuel n + 1) := by
  induction fuel with
  | zero => intro n h1 h2; omega
  | succ fuel ih =>
    intro n h1 h2
    unfold ilog2Aux
    by_cases hn : n < 2
    · rw [if_pos hn]
      constructor
      · simpa using h2
      · simpa using hn
    · rw [if_neg hn]
      have hdiv : n / 2 ≤ fuel := by omega
      have hpos : 0 < n / 2 := by omega
      obtain ⟨ih1, ih2⟩ := ih (n / 2) hdiv hpos
      constructor
      · rw [pow_succ]
        omega
      · rw [pow_succ]
        omega

theorem ilog2_spec (n : Nat) (h : 0 < n) : 2 ^ ilog2 n ≤ n ∧ n < 2 ^ (ilog2 n + 1) :=
  ilog2Aux_spec n n (le_refl n) h

theorem two_zpow_split (j : Int) :
    (2 : ℚ) ^ j = (2 : ℚ) ^ j.toNat / (2 : ℚ) ^ (-j).toNat := by
  rcases le_total 0 j with h | h
  · have h1 : (-j).toNat = 0 := by omega
    have h2 : ((j.toNat : Nat) : Int) = j := Int.toNat_of_nonneg h
    rw [h1, pow_zero, div_one, ← zpow_natCast, h2]
  · have h1 : j.toNat = 0 := by omega
    have h2 : (((-j).toNat : Nat) : Int) = -j := Int.toNat_of_nonneg (by omega)
    rw [h1, pow_zero, one_div, ← zpow_natCast, h2, zpow_neg, inv_inv]

/-- The exponent `k` that `round32` computes is `floor (log2 (num / den))`. -/
theorem round32_exponent (num den : Nat) (hnum : 0 < num) (hden : 0 < den) :
    let k0 : Int := (ilog2 num : Int) - (ilog2 den : Int)
    let k : Int := if num * 2 ^ (-k0).toNat < den * 2 ^ k0.toNat then k0 - 1 else k0
    (2 : ℚ) ^ k ≤ (num : ℚ) / den ∧ (num : ℚ) / den < (2 : ℚ) ^ (k + 1) := by
  intro k0 k
  obtain ⟨a1, a2⟩ := ilog2_spec num hnum
  obtain ⟨b1, b2⟩ := ilog2_spec den hden
  have hdq : (0 : ℚ) < den := by exact_mod_cast hden
  have a1q : (2 : ℚ) ^ (ilog2 num : Int) ≤ num := by
    rw [zpow_natCast]; exact_mod_cast a1
  have a2q : (num : ℚ) < (2 : ℚ) ^ ((ilog2 num : Int) + 1) := by
    rw [show ((ilog2 num : Int) + 1) = ((ilog2 num + 1 : Nat) : Int) by push_cast; rfl,
      zpow_natCast]
    exact_mod_cast a2
  have b1q : (2 : ℚ) ^ (ilog2 den : Int) ≤ den := by
    rw [zpow_natCast]; exact_mod_cast b1
  have b2q : (den : ℚ) < (2 : ℚ) ^ ((ilog2 den : Int) + 1) := by
    rw [show ((ilog2 den : Int) + 1) = ((ilog2 den + 1 : Nat) : Int) by push_cast; rfl,
      zpow_natCast]
    exact_mod_cast b2
  have hpb : (0 : ℚ) < (2 : ℚ) ^ (ilog2 den : Int) := by positivity
  have hpb1 : (0 : ℚ) < (2 : ℚ) ^ ((ilog2 den : Int) + 1) := by positivity
  -- 2^(k0-1) < num/den < 2^(k0+1)
  have hlow : (2 : ℚ) ^ (k0 - 1) < (num : ℚ) / den := by
    rw [lt_div_iff₀ hdq]
    have e : (2 : ℚ) ^ (k0 - 1) * (2 : ℚ) ^ ((ilog2 den : Int) + 1)
        = (2 : ℚ) ^ (ilog2 num : Int) := by
      rw [← zpow_add₀ (by norm_num : (2 : ℚ) ≠ 0)]
      congr 1
      simp only [k0]
      ring
    have hpk : (0 : ℚ) < (2 : ℚ) ^ (k0 - 1) := by positivity
    calc (2 : ℚ) ^ (k0 - 1) * den < (2 : ℚ) ^ (k0 - 1) * (2 : ℚ) ^ ((ilog2 den : Int) + 1) :=
          mul_lt_mul_of_pos_left b2q hpk
      _ = (2 : ℚ) ^ (ilog2 num : Int) := e
      _ ≤ num := a1q
  have hhigh : (num : ℚ) / den < (2 : ℚ) ^ (k0 + 1) := by
    rw [div_lt_iff₀ hdq]
    have e : (2 : ℚ) ^ (k0 + 1) * (2 : ℚ) ^ (ilog2 den : Int)
        = (2 : ℚ) ^ ((ilog2 num : Int) + 1) := by
      rw [← zpow_add₀ (by norm_num : (2 : ℚ) ≠ 0)]
      congr 1
      simp only [k0]
      ring
    have hpk : (0 : ℚ) < (2 : ℚ) ^ (k0 + 1) := by positivity
    calc (num : ℚ) < (2 : ℚ) ^ ((ilog2 num : Int) + 1) := a2q
      _ = (2 : ℚ) ^ (k0 + 1) * (2 : ℚ) ^ (ilog2 den : Int) := e.symm
      _ ≤ (2 : ℚ) ^ (k0 + 1) * den := mul_le_mul_of_nonneg_left b1q hpk.le
  -- the test compares num/den with 2^k0
  have htest : num * 2 ^ (-k0).toNat < den * 2 ^ k0.toNat ↔ (num : ℚ) / den < (2 : ℚ) ^ k0 := by
    rw [two_zpow_split k0, div_lt_div_iff₀ hdq (by positivity)]
    constructor
    · intro h
      have : ((num * 2 ^ (-k0).toNat : Nat) : ℚ) < ((den * 2 ^ k0.toNat : Nat) : ℚ) := by
        exact_mod_cast h
      push_cast at this
      linarith
    · intro h
      have : ((num * 2 ^ (-k0).toNat : Nat) : ℚ) < ((den * 2 ^ k0.toNat : Nat) : ℚ) := by
        push_cast
        linarith
      exact_mod_cast this
  by_cases hc : num * 2 ^ (-k0).toNat < den * 2 ^ k0.toNat
  · have hk : k = k0 - 1 := if_pos hc
    rw [hk]
    refine ⟨hlow.le, ?_⟩
    rw [show k0 - 1 + 1 = k0 by ring]
    exact htest.mp hc
  · have hk : k = k0 := if_neg hc
    rw [hk]
    refine ⟨?_, hhigh⟩
    rw [htest, not_lt] at hc
    exact hc

theorem roundHalfEven_exact (m D : Nat) (hD : 0 < D) : roundHalfEven (m * D) D = m := by
  unfold roundHalfEven
  simp only [Nat.mul_mod_left, Nat.mul_zero]
  rw [if_pos hD, Nat.mul_div_cancel _ hD]

theorem roundHalfEven_le (N D U : Nat) (hD : 0 < D) (h : N ≤ U * D) :
    roundHalfEven N D ≤ U := by
  have hq : N / D ≤ U := Nat.div_le_of_le_mul (by rw [Nat.mul_comm]; exact h)
  have hdm := Nat.div_add_mod N D
  have hml := Nat.mod_lt N hD
  unfold roundHalfEven
  simp only []
  by_cases h0 : N % D = 0
  · rw [if_pos (by omega)]
    exact hq
  · have hlt : N / D < U := by
      by_contra hcon
      have hge : U ≤ N / D := by omega
      have : U * D ≤ N / D * D := Nat.mul_le_mul_right D hge
      have : D * (N / D) = N / D * D := Nat.mul_comm _ _
      omega
    split_ifs <;> omega

theorem roundHalfEven_ge (N D L : Nat) (hD : 0 < D) (h : L * D ≤ N) :
    L ≤ roundHalfEven N D := by
  have hq : L ≤ N / D := (Nat.le_div_iff_mul_le hD).mpr h
  unfold roundHalfEven
  simp only []
  split_ifs <;> omega

/-- The scaled quotient that `round32` rounds. -/
theorem round32_quotient (num den : Nat) (ex t : Int) (hden : 0 < den) :
    ((num * 2 ^ (ex - t).toNat : Nat) : ℚ) / ((den * 2 ^ (t - ex).toNat : Nat) : ℚ)
      = (num : ℚ) / den * (2 : ℚ) ^ (ex - t) := by
  have hdq : (den : ℚ) ≠ 0 := by exact_mod_cast hden.ne'
  have e : t - ex = -(ex - t) := by ring
  rw [two_zpow_split (ex - t), e]
  push_cast
  field_simp

theorem round32_isBinary32 (neg : Bool) (num den : Nat) (ex : Int) (hden : 0 < den) :
    (round32 neg num den ex).isBinary32 = true := by
  unfold round32
  by_cases hnum : num = 0
  · rw [if_pos hnum]
    rfl
  · rw [if_neg hnum]
    have hk := round32_exponent num den (Nat.pos_of_ne_zero hnum) hden
    lift_lets
    intro k0 k t N D m
    have hk' : (2 : ℚ) ^ k ≤ (num : ℚ) / den ∧ (num : ℚ) / den < (2 : ℚ) ^ (k + 1) := hk
    have hD : 0 < D := Nat.mul_pos hden (by positivity)
    have hq : ((N : Nat) : ℚ) / ((D : Nat) : ℚ) = (num : ℚ) / den * (2 : ℚ) ^ (ex - t) :=
      round32_quotient num den ex t hden
    have hDq : (0 : ℚ) < (D : ℚ) := by exact_mod_cast hD
    have ht1 : k + ex - 23 ≤ t := le_max_left _ _
    have ht2 : -149 ≤ t := le_max_right _ _
    have hpt : (0 : ℚ) < (2 : ℚ) ^ (ex - t) := by positivity
    -- the quotient is below 2^24
    have hup : (N : ℚ) / D < (2 : ℚ) ^ (24 : Int) := by
      rw [hq]
      calc (num : ℚ) / den * (2 : ℚ) ^ (ex - t) < (2 : ℚ) ^ (k + 1) * (2 : ℚ) ^ (ex - t) :=
            mul_lt_mul_of_pos_right hk'.2 hpt
        _ = (2 : ℚ) ^ (k + 1 + (ex - t)) := (zpow_add₀ (by norm_num) _ _).symm
        _ ≤ (2 : ℚ) ^ (24 : Int) := zpow_le_zpow_right₀ (by norm_num) (by omega)
    have hmle : m ≤ 2 ^ 24 := by
      apply roundHalfEven_le N D (2 ^ 24) hD
      have h1 : (N : ℚ) < (2 : ℚ) ^ (24 : Int) * D := (div_lt_iff₀ hDq).mp hup
      have h2 : (N : ℚ) < ((2 ^ 24 * D : Nat) : ℚ) := by
        push_cast
        have e24 : (2 : ℚ) ^ (24 : Int) = (2 : ℚ) ^ (24 : Nat) := by norm_num
        rw [e24] at h1
        exact h1
      have h3 : N < 2 ^ 24 * D := by exact_mod_cast h2
      omega
    by_cases hm : m = 2 ^ 24
    · rw [if_pos hm]
      by_cases ht : t + 1 > 104
      · rw [if_pos ht]; rfl
      · rw [if_neg ht]
        simp only [isBinary32, Bool.and_eq_true, Bool.or_eq_true, decide_eq_true_eq]
        refine ⟨⟨⟨by norm_num, by omega⟩, by omega⟩, Or.inl (le_refl _)⟩
    · rw [if_neg hm]
      by_cases ht : t > 104
      · rw [if_pos ht]; rfl
      · rw [if_neg ht]
        simp only [isBinary32, Bool.and_eq_true, Bool.or_eq_true, decide_eq_true_eq]
        refine ⟨⟨⟨by omega, ht2⟩, by omega⟩, ?_⟩
        by_cases hsub : t = -149
        · exact Or.inr hsub
        · left
          have hte : t = k + ex - 23 := by
            rcases max_choice (k + ex - 23) (-149) with h | h
            · exact h
            · exact absurd h hsub
          apply roundHalfEven_ge N D (2 ^ 23) hD
          have hlow : (2 : ℚ) ^ (23 : Int) ≤ (N : ℚ) / D := by
            rw [hq]
            calc (2 : ℚ) ^ (23 : Int) = (2 : ℚ) ^ (k + (ex - t)) := by
                  congr 1; omega
              _ = (2 : ℚ) ^ k * (2 : ℚ) ^ (ex - t) := zpow_add₀ (by norm_num) _ _
              _ ≤ (num : ℚ) / den * (2 : ℚ) ^ (ex - t) :=
                  mul_le_mul_of_nonneg_right hk'.1 hpt.le
          have h1 : (2 : ℚ) ^ (23 : Int) * D ≤ (N : ℚ) := (le_div_iff₀ hDq).mp hlow
          have h2 : ((2 ^ 23 * D : Nat) : ℚ) ≤ (N : ℚ) := by
            push_cast
            have e23 : (2 : ℚ) ^ (23 : Int) = (2 : ℚ) ^ (23 : Nat) := by norm_num
            rw [e23] at h1
            exact h1
          exact_mod_cast h2

theorem exponent_lt_of_bounds (a b : Int) (v : ℚ) (h1 : (2 : ℚ) ^ a ≤ v) (h2 : v < (2 : ℚ) ^ b) :
    a < b := by
  by_contra hcon
  have : (2 : ℚ) ^ b ≤ (2 : ℚ) ^ a := zpow_le_zpow_right₀ (by norm_num) (by omega)
  linarith

/-- Rounding is the identity on the numbers binary32 represents: a positive
    quotient whose value is `m0 * 2^e0` for a normalised pair rounds to it. -/
theorem round32_exact (neg : Bool) (num den : Nat) (ex : Int) (m0 : Nat) (e0 : Int)
    (hnum : 0 < num) (hden : 0 < den) (hcanon : (finite neg m0 e0).isBinary32 = true)
    (hval : (num : ℚ) / den * (2 : ℚ) ^ ex = (m0 : ℚ) * (2 : ℚ) ^ e0) :
    round32 neg num den ex = finite neg m0 e0 := by
  simp only [isBinary32, Bool.and_eq_true, Bool.or_eq_true, decide_eq_true_eq] at hcanon
  obtain ⟨⟨⟨hm24, he1⟩, he2⟩, hnorm⟩ := hcanon
  have hm24q : (m0 : ℚ) < (2 : ℚ) ^ (24 : Int) := by
    have : ((m0 : Nat) : ℚ) < ((2 ^ 24 : Nat) : ℚ) := by exact_mod_cast hm24
    push_cast at this
    norm_num
    linarith
  have hk := round32_exponent num den hnum hden
  unfold round32
  rw [if_neg hnum.ne']
  lift_lets
  intro k0 k t N D m
  have hk' : (2 : ℚ) ^ k ≤ (num : ℚ) / den ∧ (num : ℚ) / den < (2 : ℚ) ^ (k + 1) := hk
  have hD : 0 < D := Nat.mul_pos hden (by positivity)
  have hDq : (0 : ℚ) < (D : ℚ) := by exact_mod_cast hD
  have hq : ((N : Nat) : ℚ) / ((D : Nat) : ℚ) = (num : ℚ) / den * (2 : ℚ) ^ (ex - t) :=
    round32_quotient num den ex t hden
  have hpe : (0 : ℚ) < (2 : ℚ) ^ ex := by positivity
  have hpe0 : (0 : ℚ) < (2 : ℚ) ^ e0 := by positivity
  -- bounds of the value v = num/den * 2^ex
  have hv1 : (2 : ℚ) ^ (k + ex) ≤ (m0 : ℚ) * (2 : ℚ) ^ e0 := by
    rw [← hval, zpow_add₀ (by norm_num : (2 : ℚ) ≠ 0)]
    exact mul_le_mul_of_nonneg_right hk'.1 hpe.le
  have hv2 : (m0 : ℚ) * (2 : ℚ) ^ e0 < (2 : ℚ) ^ (k + 1 + ex) := by
    rw [← hval, zpow_add₀ (by norm_num : (2 : ℚ) ≠ 0) (k + 1)]
    exact mul_lt_mul_of_pos_right hk'.2 hpe
  have hv3 : (m0 : ℚ) * (2 : ℚ) ^ e0 < (2 : ℚ) ^ (24 + e0) := by
    rw [zpow_add₀ (by norm_num : (2 : ℚ) ≠ 0)]
    exact mul_lt_mul_of_pos_right hm24q hpe0
  have hlt1 : k + ex < 24 + e0 := exponent_lt_of_bounds _ _ _ hv1 hv3
  have ht : t = e0 := by
    rcases hnorm with h23 | hsub
    · have h23q : (2 : ℚ) ^ (23 : Int) ≤ (m0 : ℚ) := by
        have : ((2 ^ 23 : Nat) : ℚ) ≤ ((m0 : Nat) : ℚ) := by exact_mod_cast h23
        push_cast at this
        norm_num
        linarith
      have hv4 : (2 : ℚ) ^ (23 + e0) ≤ (m0 : ℚ) * (2 : ℚ) ^ e0 := by
        rw [zpow_add₀ (by norm_num : (2 : ℚ) ≠ 0)]
        exact mul_le_mul_of_nonneg_right h23q hpe0.le
      have hlt2 : 23 + e0 < k + 1 + ex := exponent_lt_of_bounds _ _ _ hv4 hv2
      have hke : k + ex - 23 = e0 := by omega
      show max (k + ex - 23) (-149) = e0
      rw [hke]
      exact max_eq_left he1
    · show max (k + ex - 23) (-149) = e0
      rw [hsub]
      apply max_eq_right
      omega
  -- the scaled quotient is the integer m0
  have hNm : N = m0 * D := by
    have h1 : (N : ℚ) / D = (m0 : ℚ) := by
      rw [hq, ht]
      have : (2 : ℚ) ^ (ex - e0) = (2 : ℚ) ^ ex / (2 : ℚ) ^ e0 :=
        zpow_sub₀ (by norm_num) _ _
      rw [this, ← mul_div_assoc, hval]
      field_simp
    have h2 : (N : ℚ) = (m0 : ℚ) * D := by
      rw [← h1]
      field_simp
    have h3 : ((N : Nat) : ℚ) = ((m0 * D : Nat) : ℚ) := by
      push_cast
      exact h2
    exact_mod_cast h3
  have hm : m = m0 := by
    show roundHalfEven N D = m0
    rw [hNm]
    exact roundHalfEven_exact m0 D hD
  rw [hm, if_neg (by omega), ht, if_neg (by omega)]

/-! ## Adding zero, dividing by one, converting integers -/

theorem add_comm' (x y : CFloat) : add x y = add y x := by
  cases x with
  | nan => cases y <;> rfl
  | inf a =>
    cases y with
    | nan => rfl
    | inf b =>
      simp only [add]
      by_cases h : a = b
      · subst h; rfl
      · rw [if_neg h, if_neg (fun h' => h h'.symm)]
    | finite n m e => rfl
  | finite n1 m1 e1 =>
    cases y with
    | nan => rfl
    | inf b => rfl
    | finite n2 m2 e2 =>
      simp only [add]
      rw [min_comm e1 e2, Int.add_comm (scaled n1 m1 e1 (min e2 e1)), Bool.and_comm]

theorem round32_sign (neg : Bool) (num den : Nat) (ex : Int) (n : Bool) (m : Nat) (e : Int)
    (h : round32 neg num den ex = finite n m e) : n = neg := by
  unfold round32 at h
  simp only [] at h
  split_ifs at h <;> simp only [finite.injEq] at h <;> exact h.1.symm

/-- A quotient of at least `2^-149` does not round to zero. -/
theorem round32_pos (neg : Bool) (num den : Nat) (ex : Int) (n : Bool) (m : Nat) (e : Int)
    (hnum : 0 < num) (hden : 0 < den)
    (hv : (2 : ℚ) ^ (-149 : Int) ≤ (num : ℚ) / den * (2 : ℚ) ^ ex)
    (h : round32 neg num den ex = finite n m e) : 0 < m := by
  have hk := round32_exponent num den hnum hden
  unfold round32 at h
  rw [if_neg hnum.ne'] at h
  revert h
  lift_lets
  intro k0 k t N D r h
  have hk' : (2 : ℚ) ^ k ≤ (num : ℚ) / den ∧ (num : ℚ) / den < (2 : ℚ) ^ (k + 1) := hk
  have hD : 0 < D := Nat.mul_pos hden (by positivity)
  have hDq : (0 : ℚ) < (D : ℚ) := by exact_mod_cast hD
  have hq : ((N : Nat) : ℚ) / ((D : Nat) : ℚ) = (num : ℚ) / den * (2 : ℚ) ^ (ex - t) :=
    round32_quotient num den ex t hden
  have hpe : (0 : ℚ) < (2 : ℚ) ^ ex := by positivity
  have hvt : (2 : ℚ) ^ t ≤ (num : ℚ) / den * (2 : ℚ) ^ ex := by
    rcases max_choice (k + ex - 23) (-149) with hc | hc
    · have ht : t = k + ex - 23 := hc
      calc (2 : ℚ) ^ t ≤ (2 : ℚ) ^ (k + ex) := zpow_le_zpow_right₀ (by norm_num) (by omega)
        _ = (2 : ℚ) ^ k * (2 : ℚ) ^ ex := zpow_add₀ (by norm_num) _ _
        _ ≤ (num : ℚ) / den * (2 : ℚ) ^ ex := mul_le_mul_of_nonneg_right hk'.1 hpe.le
    · have ht : t = -149 := hc
      rw [ht]
      exact hv
  have hr : 1 ≤ r := by
    apply roundHalfEven_ge N D 1 hD
    have h1 : (1 : ℚ) ≤ (N : ℚ) / D := by
      rw [hq, zpow_sub₀ (by norm_num : (2 : ℚ) ≠ 0), ← mul_div_assoc,
        le_div_iff₀ (by positivity)]
      linarith
    have h2 : (1 : ℚ) * D ≤ (N : ℚ) := (le_div_iff₀ hDq).mp h1
    have h3 : ((1 * D : Nat) : ℚ) ≤ ((N : Nat) : ℚ) := by
      push_cast
      exact h2
    exact_mod_cast h3
  split_ifs at h <;> simp only [finite.injEq] at h
  · rw [← h.2.1]; norm_num
  · rw [← h.2.1]; exact hr

theorem scaled_eq (n : Bool) (m : Nat) (e k : Int) :
    scaled n m e k = (if n then -1 else 1) * ((m * 2 ^ (e - k).toNat : Nat) : Int) := by
  unfold scaled
  push_cast
  rfl

theorem scaled_natAbs (n : Bool) (m : Nat) (e k : Int) :
    (scaled n m e k).natAbs = m * 2 ^ (e - k).toNat := by
  rw [scaled_eq, Int.natAbs_mul, Int.natAbs_ofNat]
  cases n <;> simp

theorem add_zero_left (x : CFloat) (hx : x.isBinary32 = true)
    (hnz : x ≠ finite true 0 (-149)) : add (finite false 0 (-149)) x = x := by
  cases x with
  | nan => rfl
  | inf a => rfl
  | finite n m e =>
    have hx' := hx
    simp only [isBinary32, Bool.and_eq_true, Bool.or_eq_true, decide_eq_true_eq] at hx'
    obtain ⟨⟨⟨hm24, he1⟩, he2⟩, hnorm⟩ := hx'
    have hmin : min (-149) e = -149 := min_eq_left he1
    simp only [add, hmin]
    have hs0 : scaled false 0 (-149) (-149) = 0 := by simp [scaled]
    rw [hs0, Int.zero_add]
    by_cases hm : m = 0
    · subst hm
      have he : e = -149 := by
        rcases hnorm with h | h
        · norm_num at h
        · exact h
      subst he
      have hn : n = false := by
        cases n
        · rfl
        · exact absurd rfl hnz
      subst hn
      rfl
    · have hmpos : 0 < m := Nat.pos_of_ne_zero hm
      have hp : 0 < m * 2 ^ (e - -149).toNat := Nat.mul_pos hmpos (by positivity)
      have hsc : scaled n m e (-149)
          = (if n then -1 else 1) * ((m * 2 ^ (e - -149).toNat : Nat) : Int) :=
        scaled_eq n m e (-149)
      have hne : scaled n m e (-149) ≠ 0 := by
        rw [hsc]
        cases n <;> simp <;> omega
      have hneg : decide (scaled n m e (-149) < 0) = n := by
        rw [hsc]
        cases n
        · simp only [Bool.false_eq_true, if_false, one_mul, decide_eq_false_iff_not, not_lt]
          exact Int.natCast_nonneg _
        · simp only [if_true, decide_eq_true_eq]
          omega
      have habs : (scaled n m e (-149)).natAbs = m * 2 ^ (e - -149).toNat :=
        scaled_natAbs n m e (-149)
      rw [if_neg hne, hneg, habs]
      apply round32_exact n _ 1 (-149) m e hp (by norm_num) hx
      have h2 : (((2 : Nat) ^ (e - -149).toNat : Nat) : ℚ) = (2 : ℚ) ^ (e + 149) := by
        push_cast
        rw [← zpow_natCast]
        congr 1
        omega
      push_cast
      push_cast at h2
      rw [h2, zpow_add₀ (by norm_num : (2 : ℚ) ≠ 0)]
      have : (2 : ℚ) ^ (149 : Int) * (2 : ℚ) ^ (-149 : Int) = 1 := by
        rw [← zpow_add₀ (by norm_num : (2 : ℚ) ≠ 0)]
        norm_num
      field_simp
      linear_combination (m : ℚ) * (2 : ℚ) ^ e * this

theorem ofInt_one : ofInt 1 = finite false 8388608 (-23) := by decide!

theorem div_ofInt_one (x : CFloat) (hx : x.isBinary32 = true) : div x (ofInt 1) = x := by
  rw [ofInt_one]
  cases x with
  | nan => rfl
  | inf a => simp [div]
  | finite n m e =>
    have hx' := hx
    simp only [isBinary32, Bool.and_eq_true, Bool.or_eq_true, decide_eq_true_eq] at hx'
    obtain ⟨⟨⟨hm24, he1⟩, he2⟩, hnorm⟩ := hx'
    simp only [div, Bool.xor_false]
    rw [if_neg (by norm_num)]
    by_cases hm : m = 0
    · subst hm
      have he : e = -149 := by
        rcases hnorm with h | h
        · norm_num at h
        · exact h
      subst he
      rfl
    · apply round32_exact n m 8388608 _ m e (Nat.pos_of_ne_zero hm) (by norm_num) hx
      rw [show e - -23 = e + 23 by ring, zpow_add₀ (by norm_num : (2 : ℚ) ≠ 0)]
      norm_num
      ring

theorem ofInt_isBinary32 (n : Int) : (ofInt n).isBinary32 = true :=
  round32_isBinary32 _ _ 1 0 (by norm_num)

theorem ofInt_zero : ofInt 0 = finite false 0 (-149) := by decide

theorem ofInt_ne_neg_zero (n : Int) : ofInt n ≠ finite true 0 (-149) := by
  intro h
  have hs := round32_sign _ _ _ _ _ _ _ h
  have hneg : n < 0 := by simpa using hs.symm
  have hpos : 0 < n.natAbs := by omega
  have h1 : (1 : ℚ) ≤ (n.natAbs : ℚ) := by exact_mod_cast hpos
  have := round32_pos _ _ _ _ _ _ _ hpos (by norm_num) (by
    have : (2 : ℚ) ^ (-149 : Int) ≤ 1 := zpow_le_one_of_nonpos₀ (by norm_num) (by norm_num)
    simp only [Nat.cast_one, div_one, zpow_zero, mul_one]
    linarith) h
  omega

/-- Every natural number up to `2^24` is a binary32 number. -/
theorem nat_normal_form (a : Nat) (h0 : 0 < a) (h : a ≤ 2 ^ 24) :
    ∃ (m0 : Nat) (e0 : Int), m0 < 2 ^ 24 ∧ 2 ^ 23 ≤ m0 ∧ -149 ≤ e0 ∧ e0 ≤ 104
      ∧ (m0 : ℚ) * (2 : ℚ) ^ e0 = (a : ℚ) := by
  by_cases ha : a = 2 ^ 24
  · refine ⟨2 ^ 23, 1, by norm_num, le_refl _, by norm_num, by norm_num, ?_⟩
    rw [ha]
    norm_num
  · have hlt : a < 2 ^ 24 := by omega
    have hk1 : 2 ^ Nat.log 2 a ≤ a := Nat.pow_log_le_self 2 h0.ne'
    have hk2 : a < 2 ^ (Nat.log 2 a + 1) := Nat.lt_pow_succ_log_self (by norm_num) a
    have hk : Nat.log 2 a ≤ 23 := by
      by_contra hcon
      have : 2 ^ 24 ≤ 2 ^ Nat.log 2 a := Nat.pow_le_pow_right (by norm_num) (by omega)
      omega
    obtain ⟨j, hj⟩ : ∃ j, Nat.log 2 a + j = 23 := ⟨23 - Nat.log 2 a, by omega⟩
    refine ⟨a * 2 ^ j, (Nat.log 2 a : Int) - 23, ?_, ?_, by omega, by omega, ?_⟩
    · calc a * 2 ^ j < 2 ^ (Nat.log 2 a + 1) * 2 ^ j :=
            Nat.mul_lt_mul_of_pos_right hk2 (by positivity)
        _ = 2 ^ 24 := by rw [← pow_add]; congr 1; omega
    · calc 2 ^ 23 = 2 ^ Nat.log 2 a * 2 ^ j := by rw [← pow_add, hj]
        _ ≤ a * 2 ^ j := Nat.mul_le_mul_right _ hk1
    · have e : ((Nat.log 2 a : Int) - 23) = -(j : Int) := by omega
      rw [e, zpow_neg, zpow_natCast]
      push_cast
      field_simp

/-- The conversion of an `int` of magnitude at most `2^24` is exact. -/
theorem ofInt_exact (n : Int) (h : n.natAbs ≤ 2 ^ 24) :
    ∃ (m0 : Nat) (e0 : Int), ofInt n = finite (decide (n < 0)) m0 e0
      ∧ val (decide (n < 0)) m0 e0 = (n : ℚ) := by
  by_cases h0 : n = 0
  · subst h0
    exact ⟨0, -149, ofInt_zero, by simp [val]⟩
  · have hpos : 0 < n.natAbs := Int.natAbs_pos.mpr h0
    obtain ⟨m0, e0, h1, h2, h3, h4, h5⟩ := nat_normal_form n.natAbs hpos h
    refine ⟨m0, e0, ?_, ?_⟩
    · apply round32_exact _ _ 1 0 m0 e0 hpos (by norm_num)
      · simp only [isBinary32, Bool.and_eq_true, Bool.or_eq_true, decide_eq_true_eq]
        exact ⟨⟨⟨h1, h3⟩, h4⟩, Or.inl h2⟩
      · rw [h5]
        simp
    · unfold val
      rw [mul_assoc, h5]
      obtain ⟨a, ha⟩ : ∃ a : Nat, n.natAbs = a := ⟨_, rfl⟩
      rw [ha]
      by_cases hn : n < 0
      · have hz : n = -(a : Int) := by omega
        simp only [hn, decide_True, if_true]
        rw [hz]
        push_cast
        ring
      · have hz : n = (a : Int) := by omega
        simp only [hn, decide_False, Bool.false_eq_true, if_false, one_mul]
        rw [hz]
        push_cast
        rfl

theorem ofInt_hasValue (n : Int) (h : n.natAbs ≤ 2 ^ 24) : hasValue (ofInt n) (n : ℚ) := by
  obtain ⟨m0, e0, h1, h2⟩ := ofInt_exact n h
  rw [h1]
  exact h2

end CFloat

/-! ## Statistics of one record -/

theorem add_zero_ofInt (n : Int) : add (finite false 0 (-149)) (ofInt n) = ofInt n :=
  add_zero_left _ (ofInt_isBinary32 n) (ofInt_ne_neg_zero n)

theorem mean_of_one_int (n : Int) :
    div (add (finite false 0 (-149)) (ofInt n)) (ofInt 1) = ofInt n := by
  rw [add_zero_ofInt, div_ofInt_one _ (ofInt_isBinary32 n)]

theorem mean_of_one_float (x : CFloat) (hx : x.isBinary32 = true) :
    div (add (finite false 0 (-149)) x) (ofInt 1)
      = if x = finite true 0 (-149) then finite false 0 (-149) else x := by
  by_cases h : x = finite true 0 (-149)
  · rw [if_pos h, h]
    decide!
  · rw [if_neg h, add_zero_left x hx h, div_ofInt_one x hx]

theorem wrap32_of_isInt32 (x : Int) (h : isInt32 x = true) : wrap32 x = x := by
  simp only [isInt32, Bool.and_eq_true, decide_eq_true_eq] at h
  unfold wrap32
  omega

/-- C13, amended: for every record `r` whose fields hold values of their C
    types, `calculate_statistics` on `[r]` returns `record_count = 1`,
    `total_steps = r.steps`, each integer average equal to the field converted
    to `float` (exactly the field when its magnitude is at most `2^24`,
    otherwise the field rounded to binary32), and `avg_temperature` equal to
    `r.temperature` (with `+0.0` for `-0.0`). -/
theorem single_record_statistics (r : HealthRecord) (htyped : r.wellTyped = true) :
    (calculate_statistics [r]).record_count = 1
      ∧ (calculate_statistics [r]).total_steps = r.steps
      ∧ (calculate_statistics [r]).avg_heart_rate = ofInt r.heart_rate
      ∧ (calculate_statistics [r]).avg_systolic = ofInt r.systolic_bp
      ∧ (calculate_statistics [r]).avg_diastolic = ofInt r.diastolic_bp
      ∧ (calculate_statistics [r]).avg_blood_sugar = ofInt r.blood_sugar
      ∧ (calculate_statistics [r]).avg_oxygen = ofInt r.oxygen_level
      ∧ (calculate_statistics [r]).avg_temperature
          = (if r.temperature = finite true 0 (-149) then finite false 0 (-149)
             else r.temperature)
      ∧ (r.heart_rate.natAbs ≤ 2 ^ 24 →
          hasValue (calculate_statistics [r]).avg_heart_rate (r.heart_rate : ℚ))
      ∧ (r.systolic_bp.natAbs ≤ 2 ^ 24 →
          hasValue (calculate_statistics [r]).avg_systolic (r.systolic_bp : ℚ))
      ∧ (r.diastolic_bp.natAbs ≤ 2 ^ 24 →
          hasValue (calculate_statistics [r]).avg_diastolic (r.diastolic_bp : ℚ))
      ∧ (r.blood_sugar.natAbs ≤ 2 ^ 24 →
          hasValue (calculate_statistics [r]).avg_blood_sugar (r.blood_sugar : ℚ))
      ∧ (r.oxygen_level.natAbs ≤ 2 ^ 24 →
          hasValue (calculate_statistics [r]).avg_oxygen (r.oxygen_level : ℚ)) := by
  simp only [HealthRecord.wellTyped, Bool.and_eq_true] at htyped
  obtain ⟨⟨⟨⟨⟨⟨-, -⟩, -⟩, -⟩, htemp⟩, -⟩, hsteps⟩ := htyped
  have hcount : (([r] : List HealthRecord).length : Int) = 1 := rfl
  have e1 : (calculate_statistics [r]).avg_heart_rate = ofInt r.heart_rate := by
    simp only [calculate_statistics, sum_records, hcount]
    exact mean_of_one_int _
  have e2 : (calculate_statistics [r]).avg_systolic = ofInt r.systolic_bp := by
    simp only [calculate_statistics, sum_records, hcount]
    exact mean_of_one_int _
  have e3 : (calculate_statistics [r]).avg_diastolic = ofInt r.diastolic_bp := by
    simp only [calculate_statistics, sum_records, hcount]
    exact mean_of_one_int _
  have e4 : (calculate_statistics [r]).avg_blood_sugar = ofInt r.blood_sugar := by
    simp only [calculate_statistics, sum_records, hcount]
    exact mean_of_one_int _
  have e5 : (calculate_statistics [r]).avg_oxygen = ofInt r.oxygen_level := by
    simp only [calculate_statistics, sum_records, hcount]
    exact mean_of_one_int _
  refine ⟨rfl, ?_, e1, e2, e3, e4, e5, ?_, ?_, ?_, ?_, ?_, ?_⟩
  · simp only [calculate_statistics, sum_records, Int.zero_add]
    exact wrap32_of_isInt32 _ hsteps
  · simp only [calculate_statistics, sum_records, hcount]
    exact mean_of_one_float _ htemp
  · intro h; rw [e1]; exact ofInt_hasValue _ h
  · intro h; rw [e2]; exact ofInt_hasValue _ h
  · intro h; rw [e3]; exact ofInt_hasValue _ h
  · intro h; rw [e4]; exact ofInt_hasValue _ h
  · intro h; rw [e5]; exact ofInt_hasValue _ h

theorem single_record_statistics_witness :
    (record_with_temp 970).wellTyped = true
      ∧ (calculate_statistics [record_with_temp 970]).avg_heart_rate = ofInt 72
      ∧ (calculate_statistics [record_with_temp 970]).avg_temperature
          = finite false 12713984 (-17) :=
  ⟨by decide!, (single_record_statistics _ (by decide!)).2.2.1,
    (single_record_statistics _ (by decide!)).2.2.2.2.2.2.2.1⟩

/-- C13 as stated fails: for the record `record_hr_16777217` the average
    heart rate of the one-element sequence is 16777216, not the field
    16777217, which binary32 cannot represent. -/
theorem single_record_counterexample :
    record_hr_16777217.wellTyped = true
      ∧ record_hr_16777217.heart_rate = 16777217
      ∧ (calculate_statistics [record_hr_16777217]).avg_heart_rate = finite false 8388608 1
      ∧ hasValue (calculate_statistics [record_hr_16777217]).avg_heart_rate 16777216
      ∧ ¬ hasValue (calculate_statistics [record_hr_16777217]).avg_heart_rate
            (record_hr_16777217.heart_rate : ℚ) := by
  have h : (calculate_statistics [record_hr_16777217]).avg_heart_rate
      = finite false 8388608 1 := by decide!
  refine ⟨by decide!, rfl, h, ?_, ?_⟩
  · rw [h]
    norm_num [hasValue, val]
  · rw [h]
    norm_num [hasValue, val, record_hr_16777217]

/-! ## Sums of small integers are exact -/

namespace CFloat

theorem ofInt_exact_abs (n : Int) (h : n.natAbs ≤ 2 ^ 24) :
    ∃ (m0 : Nat) (e0 : Int), ofInt n = finite (decide (n < 0)) m0 e0
      ∧ (m0 : ℚ) * (2 : ℚ) ^ e0 = (n.natAbs : ℚ) := by
  obtain ⟨m0, e0, h1, h2⟩ := ofInt_exact n h
  refine ⟨m0, e0, h1, ?_⟩
  unfold val at h2
  rw [Nat.cast_natAbs, Int.cast_abs]
  by_cases hn : n < 0
  · simp only [hn, decide_True, if_true] at h2
    have : (n : ℚ) < 0 := by exact_mod_cast hn
    rw [abs_of_neg this, ← h2]
    ring
  · simp only [hn, decide_False, Bool.false_eq_true, if_false, one_mul] at h2
    have : (0 : ℚ) ≤ (n : ℚ) := by exact_mod_cast (not_lt.mp hn)
    rw [abs_of_nonneg this, ← h2]

theorem add_ofInt (a b : Int) (h : a.natAbs + b.natAbs ≤ 2 ^ 24) :
    add (ofInt a) (ofInt b) = ofInt (a + b) := by
  obtain ⟨ma, ea, ha1, ha2⟩ := ofInt_exact a (by omega)
  obtain ⟨mb, eb, hb1, hb2⟩ := ofInt_exact b (by omega)
  have hab : (a + b).natAbs ≤ 2 ^ 24 := by omega
  obtain ⟨m0, e0, hc1, hc2⟩ := ofInt_exact_abs (a + b) hab
  have hcanon : (finite (decide (a + b < 0)) m0 e0).isBinary32 = true := by
    rw [← hc1]
    exact ofInt_isBinary32 _
  rw [ha1, hb1, hc1]
  simp only [add]
  have hs : ((scaled (decide (a < 0)) ma ea (min ea eb)
      + scaled (decide (b < 0)) mb eb (min ea eb) : Int) : ℚ)
      = ((a + b : Int) : ℚ) * (2 : ℚ) ^ (-(min ea eb)) := by
    push_cast
    rw [scaled_cast _ _ _ _ (min_le_left _ _), scaled_cast _ _ _ _ (min_le_right _ _),
      ha2, hb2]
    ring
  have hpow : (0 : ℚ) < (2 : ℚ) ^ (-(min ea eb)) := zpow_pos (by norm_num) _
  generalize scaled (decide (a < 0)) ma ea (min ea eb)
      + scaled (decide (b < 0)) mb eb (min ea eb) = s at hs
  by_cases h0 : s = 0
  · rw [if_pos h0]
    have hz : a + b = 0 := by
      rw [h0] at hs
      have h1 : ((a + b : Int) : ℚ) = 0 := by
        rcases mul_eq_zero.mp hs.symm with h | h
        · exact h
        · exact absurd h hpow.ne'
      exact_mod_cast h1
    rw [← hc1, hz, ofInt_zero]
    have : (decide (a < 0) && decide (b < 0)) = false := by
      by_cases h1 : a < 0
      · have : ¬ b < 0 := by omega
        simp [this]
      · simp [h1]
    rw [this]
  · rw [if_neg h0]
    have hsign : decide (s < 0) = decide (a + b < 0) := by
      have : s < 0 ↔ a + b < 0 := by
        have h1 : (s : ℚ) < 0 ↔ ((a + b : Int) : ℚ) < 0 := by
          rw [hs]
          constructor
          · intro h
            by_contra hc
            exact absurd h (not_lt.mpr (mul_nonneg (not_lt.mp hc) hpow.le))
          · intro h
            exact mul_neg_of_neg_of_pos h hpow
        exact_mod_cast h1
      simp only [this]
    rw [hsign]
    apply round32_exact _ _ 1 _ m0 e0 (Int.natAbs_pos.mpr h0) (by norm_num) hcanon
    rw [hc2, Nat.cast_natAbs, Int.cast_abs, hs, abs_mul, abs_of_pos hpow, Nat.cast_natAbs,
      Int.cast_abs, Nat.cast_one, div_one, mul_assoc, ← zpow_add₀ (by norm_num : (2 : ℚ) ≠ 0)]
    simp

end CFloat

theorem float_sum_exact (f : HealthRecord → Int) (records : List HealthRecord) :
    ∀ s0 : Int, s0.natAbs + magnitude_sum f records ≤ 2 ^ 24 →
      float_sum f (ofInt s0) records = ofInt (s0 + (records.map f).sum) := by
  induction records with
  | nil =>
    intro s0 _
    simp [float_sum]
  | cons r rest ih =>
    intro s0 h
    simp only [magnitude_sum, List.map_cons, List.sum_cons] at h
    have h1 : s0.natAbs + (f r).natAbs ≤ 2 ^ 24 := by omega
    have h2 : (s0 + f r).natAbs + magnitude_sum f rest ≤ 2 ^ 24 := by
      unfold magnitude_sum
      omega
    have := ih (s0 + f r) h2
    simp only [float_sum, List.foldl_cons, List.map_cons, List.sum_cons] at this ⊢
    rw [add_ofInt _ _ h1, this, add_assoc]

theorem wrap32_add_wrap32 (x y : Int) : wrap32 (wrap32 x + y) = wrap32 (x + y) := by
  unfold wrap32
  omega

theorem steps_sum_exact (records : List HealthRecord) :
    ∀ g : Int, records.foldl (fun s r => wrap32 (s + r.steps)) (wrap32 g)
      = wrap32 (g + (records.map (fun r => r.steps)).sum) := by
  induction records with
  | nil => intro g; simp
  | cons r rest ih =>
    intro g
    simp only [List.foldl_cons, List.map_cons, List.sum_cons]
    rw [wrap32_add_wrap32, ih, add_assoc]

theorem sum_records_folds (records : List HealthRecord) :
    ∀ (a b c d e f : CFloat) (g : Int),
      sum_records records (a, b, c, d, e, f, g)
        = (float_sum (fun r => r.heart_rate) a records,
           float_sum (fun r => r.systolic_bp) b records,
           float_sum (fun r => r.diastolic_bp) c records,
           float_sum (fun r => r.blood_sugar) d records,
           records.foldl (fun s r => add s r.temperature) e,
           float_sum (fun r => r.oxygen_level) f records,
           records.foldl (fun s r => wrap32 (s + r.steps)) g) := by
  induction records with
  | nil => intros; rfl
  | cons r rest ih =>
    intros
    simp only [sum_records, ih, float_sum, List.foldl_cons]

theorem magnitude_sum_perm (f : HealthRecord → Int) (rs rs' : List HealthRecord)
    (h : rs.Perm rs') : magnitude_sum f rs = magnitude_sum f rs' :=
  (h.map _).sum_eq

theorem float_sum_perm (f : HealthRecord → Int) (rs rs' : List HealthRecord)
    (h : rs.Perm rs') (hb : magnitude_sum f rs ≤ 2 ^ 24) :
    float_sum f (finite false 0 (-149)) rs = float_sum f (finite false 0 (-149)) rs' := by
  have hb' : magnitude_sum f rs' ≤ 2 ^ 24 := magnitude_sum_perm f rs rs' h ▸ hb
  rw [← ofInt_zero, float_sum_exact f rs 0 (by simpa using hb),
    float_sum_exact f rs' 0 (by simpa using hb'), (h.map f).sum_eq]

theorem steps_sum_perm (rs rs' : List HealthRecord) (h : rs.Perm rs') :
    rs.foldl (fun s r => wrap32 (s + r.steps)) 0
      = rs'.foldl (fun s r => wrap32 (s + r.steps)) 0 := by
  have h0 : (0 : Int) = wrap32 0 := by decide
  rw [h0, steps_sum_exact, steps_sum_exact, (h.map _).sum_eq]

/-- C12, amended: for every record sequence and every permutation of it,
    `calculate_statistics` returns the same `record_count` and the same
    `total_steps`, and the same average of each of the five integer vitals
    whenever the magnitudes of that vital sum to at most `2^24` (the sums are
    then exact in binary32).  Nothing is stated for `avg_temperature`, nor for
    integer vitals with larger sums: there the result depends on the order. -/
theorem statistics_reorder (rs rs' : List HealthRecord) (hperm : rs.Perm rs') :
    (calculate_statistics rs').record_count = (calculate_statistics rs).record_count
      ∧ (calculate_statistics rs').total_steps = (calculate_statistics rs).total_steps
      ∧ (magnitude_sum (fun r => r.heart_rate) rs ≤ 2 ^ 24 →
          (calculate_statistics rs').avg_heart_rate = (calculate_statistics rs).avg_heart_rate)
      ∧ (magnitude_sum (fun r => r.systolic_bp) rs ≤ 2 ^ 24 →
          (calculate_statistics rs').avg_systolic = (calculate_statistics rs).avg_systolic)
      ∧ (magnitude_sum (fun r => r.diastolic_bp) rs ≤ 2 ^ 24 →
          (calculate_statistics rs').avg_diastolic = (calculate_statistics rs).avg_diastolic)
      ∧ (magnitude_sum (fun r => r.blood_sugar) rs ≤ 2 ^ 24 →
          (calculate_statistics rs').avg_blood_sugar
            = (calculate_statistics rs).avg_blood_sugar)
      ∧ (magnitude_sum (fun r => r.oxygen_level) rs ≤ 2 ^ 24 →
          (calculate_statistics rs').avg_oxygen = (calculate_statistics rs).avg_oxygen) := by
  have hlen : rs'.length = rs.length := hperm.length_eq.symm
  simp only [calculate_statistics, sum_records_folds, hlen]
  refine ⟨trivial, (steps_sum_perm rs rs' hperm).symm, ?_, ?_, ?_, ?_, ?_⟩ <;>
    intro hb <;> rw [float_sum_perm _ rs rs' hperm hb]

theorem statistics_reorder_witness :
    temperature_records.Perm temperature_records.reverse
      ∧ magnitude_sum (fun r => r.heart_rate) temperature_records ≤ 2 ^ 24
      ∧ (calculate_statistics temperature_records.reverse).avg_heart_rate
          = (calculate_statistics temperature_records).avg_heart_rate :=
  ⟨(List.reverse_perm _).symm, by decide,
    (statistics_reorder _ _ (List.reverse_perm _).symm).2.2.1 (by decide)⟩

/-- C12 as stated fails: the records with temperatures 97.0, 97.1, 97.3 have
    average temperature `12731461 / 2^17` in that order and `12731460 / 2^17`
    in the reverse order; the records with heart rates 16777216, 1, 1 have
    average heart rate `11184811 / 2` in that order and `11184812 / 2` in the
    reverse order. -/
theorem statistics_reorder_counterexample :
    temperature_records.Perm temperature_records.reverse
      ∧ (calculate_statistics temperature_records).avg_temperature
          = finite false 12731461 (-17)
      ∧ (calculate_statistics temperature_records.reverse).avg_temperature
          = finite false 12731460 (-17)
      ∧ heart_rate_records.Perm heart_rate_records.reverse
      ∧ (calculate_statistics heart_rate_records).avg_heart_rate
          = finite false 11184811 (-1)
      ∧ (calculate_statistics heart_rate_records.reverse).avg_heart_rate
          = finite false 11184812 (-1) :=
  ⟨(List.reverse_perm _).symm, by decide!, by decide!,
    (List.reverse_perm _).symm, by decide!, by decide!⟩

end SmartHealth
